import Mathlib

set_option maxHeartbeats 1000000
set_option maxRecDepth 2000

/-!
Shallow embedding of `storage/slotting/pageview/freephysicalslotpage.go`
(package `pageview` of EliasDB): a page that tracks the location and size of
free physical slots.  Machine integers are modelled as `Nat` with explicit
reduction modulo `2^w` where the Go code can overflow.  Collaborators that are
not part of the repository snapshot (the backing `file.Record`, the
`SlotInfoPage` base, the `util` location packing and the `view` constants) are
modelled from the spec; every such definition is marked in its doc comment.
-/

/-- Modelled from the spec: the missing `file.Record` collaborator, a fixed-size
byte buffer with typed big-endian integer reads and writes at byte offsets. -/
structure Record where
  data : List Nat
deriving DecidableEq

/-- Modelled from the spec: read one byte of the backing buffer (reads outside
the buffer yield 0; the real record would reject them). -/
def readByte (r : Record) (k : Nat) : Nat :=
  r.data.getD k 0

/-- Modelled from the spec: write one byte (truncated to 8 bits); writes outside
the buffer are ignored (the real record would reject them). -/
def writeByte (r : Record) (k v : Nat) : Record :=
  ⟨r.data.set k (v % 256)⟩

/-- Modelled from the spec: `ReadUInt16` of the backing record, big-endian. -/
def readUInt16 (r : Record) (p : Nat) : Nat :=
  readByte r p * 256 + readByte r (p + 1)

/-- Modelled from the spec: `WriteUInt16` of the backing record, big-endian. -/
def writeUInt16 (r : Record) (p v : Nat) : Record :=
  writeByte (writeByte r p (v / 256)) (p + 1) v

/-- Modelled from the spec: `ReadUInt32` of the backing record, big-endian. -/
def readUInt32 (r : Record) (p : Nat) : Nat :=
  readByte r p * 16777216 + readByte r (p + 1) * 65536 +
    readByte r (p + 2) * 256 + readByte r (p + 3)

/-- Modelled from the spec: `WriteUInt32` of the backing record, big-endian. -/
def writeUInt32 (r : Record) (p v : Nat) : Record :=
  writeByte (writeByte (writeByte (writeByte r p (v / 16777216))
    (p + 1) (v / 65536)) (p + 2) (v / 256)) (p + 3) v

/-- Modelled from the spec: 48-bit read used for the record part of a packed
location (the packed location is 6 bytes of record id plus 2 bytes of offset). -/
def readUInt48 (r : Record) (p : Nat) : Nat :=
  readByte r p * 1099511627776 + readByte r (p + 1) * 4294967296 +
    readByte r (p + 2) * 16777216 + readByte r (p + 3) * 65536 +
    readByte r (p + 4) * 256 + readByte r (p + 5)

/-- Modelled from the spec: 48-bit write used for the record part of a packed
location. -/
def writeUInt48 (r : Record) (p v : Nat) : Record :=
  writeByte (writeByte (writeByte (writeByte (writeByte (writeByte r
    p (v / 1099511627776)) (p + 1) (v / 4294967296)) (p + 2) (v / 16777216))
    (p + 3) (v / 65536)) (p + 4) (v / 256)) (p + 5) v

/-- Modelled from the spec: `file.SIZE_SHORT`, the width of a 16-bit field. -/
def SIZE_SHORT : Nat := 2

/-- Modelled from the spec: `view.OFFSET_DATA` — page data starts right after
the 16-bit page-type header, so at byte offset 2. -/
def viewOFFSET_DATA : Nat := 2

/-- Modelled from the spec: `view.VIEW_PAGE_HEADER`, the page-view magic base. -/
def VIEW_PAGE_HEADER : Nat := 6544

/-- Modelled from the spec: `view.TYPE_FREE_PHYSICAL_SLOT_PAGE`, the page-type
tag of a free-physical-slot page. -/
def TYPE_FREE_PHYSICAL_SLOT_PAGE : Nat := 3

/-- Offset of the count of free slots stored on this page (source constant
`OFFSET_COUNT = view.OFFSET_DATA`). -/
def OFFSET_COUNT : Nat := viewOFFSET_DATA

/-- Offset of the slot information rows (source constant
`OFFSET_DATA = OFFSET_COUNT + file.SIZE_SHORT`). -/
def OFFSET_DATA : Nat := OFFSET_COUNT + SIZE_SHORT

/-- Modelled from the spec: `util.LOCATION_SIZE`, the byte width of a packed
location (6-byte record id plus 2-byte offset). -/
def LOCATION_SIZE : Nat := 8

/-- Modelled from the spec: `util.SIZE_INFO_SIZE`, the byte width of the 32-bit
size field of a row. -/
def SIZE_INFO_SIZE : Nat := 4

/-- Size of a single free slot info row (source constant
`SLOT_INFO_SIZE = util.LOCATION_SIZE + util.SIZE_INFO_SIZE`). -/
def SLOT_INFO_SIZE : Nat := LOCATION_SIZE + SIZE_INFO_SIZE

/-- Source constant `OPTIMAL_WASTE_MARGIN = 128`. -/
def OPTIMAL_WASTE_MARGIN : Nat := 128

/-- Modelled from the spec: `util.MAX_AVAILABLE_SIZE_DIFFERENCE`, the largest
size-minus-request difference representable by the downstream 16-bit
difference field. -/
def MAX_AVAILABLE_SIZE_DIFFERENCE : Nat := 65535

/-- Modelled from the spec: `util.PackLocation` packs a record id and a 16-bit
offset into a single fixed-width location value. -/
def packLocation (recId offset : Nat) : Nat :=
  recId * 65536 + offset

/-- The `FreePhysicalSlotPage` data structure: the wrapped record, the maximum
number of slots (`uint16`), the maximum acceptable waste (`uint32`) and the
in-memory size cache. -/
structure FreePhysicalSlotPage where
  record : Record
  maxSlots : Nat
  maxAcceptableWaste : Nat
  sizeCache : List Nat
deriving DecidableEq

/-- `checkFreePhysicalSlotPageMagic`: the magic number at the beginning of the
wrapped record must be `view.VIEW_PAGE_HEADER + view.TYPE_FREE_PHYSICAL_SLOT_PAGE`
(the Go code panics otherwise; the model reports the check as a Bool). -/
def checkFreePhysicalSlotPageMagic (record : Record) : Bool :=
  readUInt16 record 0 == VIEW_PAGE_HEADER + TYPE_FREE_PHYSICAL_SLOT_PAGE

/-- `NewFreePhysicalSlotPage` creates a new page wrapping a record; the Go
panic on a bad magic number is modelled as `none`. -/
def newFreePhysicalSlotPage (record : Record) : Option FreePhysicalSlotPage :=
  if checkFreePhysicalSlotPageMagic record then
    some { record := record
           maxSlots := ((record.data.length - OFFSET_DATA) / SLOT_INFO_SIZE) % 65536
           maxAcceptableWaste := (record.data.length / 4) % 4294967296
           sizeCache :=
             List.replicate (((record.data.length - OFFSET_DATA) / SLOT_INFO_SIZE) % 65536) 0 }
  else none

/-- `MaxSlots` returns the maximum number of slots which can be allocated. -/
def maxSlotsOf (fpsp : FreePhysicalSlotPage) : Nat :=
  fpsp.maxSlots

/-- `FreeSlotCount` returns the number of free slots on this page. -/
def freeSlotCount (fpsp : FreePhysicalSlotPage) : Nat :=
  readUInt16 fpsp.record OFFSET_COUNT

/-- `slotinfoToOffset` converts a slotinfo number into an offset on the record
(`uint16` arithmetic, hence the reduction modulo `2^16`). -/
def slotinfoToOffset (slotinfo : Nat) : Nat :=
  (OFFSET_DATA + slotinfo * SLOT_INFO_SIZE) % 65536

/-- `offsetToSlotinfo` converts an offset into a slotinfo number (`uint16`
subtraction, hence the additive wraparound modulo `2^16`). -/
def offsetToSlotinfo (offset : Nat) : Nat :=
  ((offset + 65536 - OFFSET_DATA) % 65536) / SLOT_INFO_SIZE

/-- `FreeSlotSize` returns the size of a free slot, lookup via offset: served
from the size cache when the cached value is non-zero, otherwise read from the
record and cached.  Returns the Go result together with the updated page. -/
def freeSlotSize (fpsp : FreePhysicalSlotPage) (offset : Nat) :
    Nat × FreePhysicalSlotPage :=
  let slotinfo := offsetToSlotinfo offset
  if fpsp.sizeCache.getD slotinfo 0 = 0 then
    let v := readUInt32 fpsp.record ((offset + LOCATION_SIZE) % 65536)
    let fpsp2 := { fpsp with sizeCache := fpsp.sizeCache.set slotinfo v }
    (fpsp2.sizeCache.getD slotinfo 0, fpsp2)
  else
    (fpsp.sizeCache.getD slotinfo 0, fpsp)

/-- `SetFreeSlotSize` sets the size of a free slot, lookup via offset: updates
the cache entry and writes the size to the record in the same call. -/
def setFreeSlotSize (fpsp : FreePhysicalSlotPage) (offset size : Nat) :
    FreePhysicalSlotPage :=
  let slotinfo := offsetToSlotinfo offset
  { fpsp with
    sizeCache := fpsp.sizeCache.set slotinfo (size % 4294967296)
    record := writeUInt32 fpsp.record ((offset + LOCATION_SIZE) % 65536) size }

/-- Modelled from the spec: `SlotInfoPage.SetSlotInfo` writes the location of a
row — 6 bytes of record id followed by 2 bytes of offset. -/
def setSlotInfo (fpsp : FreePhysicalSlotPage) (offset recId slotOffset : Nat) :
    FreePhysicalSlotPage :=
  { fpsp with
    record := writeUInt16 (writeUInt48 fpsp.record offset recId)
      (offset + 6) slotOffset }

/-- Modelled from the spec: `SlotInfoPage.SlotInfoRecord` reads the record id
part of a row's location. -/
def slotInfoRecord (fpsp : FreePhysicalSlotPage) (offset : Nat) : Nat :=
  readUInt48 fpsp.record offset

/-- Modelled from the spec: `SlotInfoPage.SlotInfoOffset` reads the offset part
of a row's location. -/
def slotInfoOffset (fpsp : FreePhysicalSlotPage) (offset : Nat) : Nat :=
  readUInt16 fpsp.record (offset + 6)

/-- `SlotInfoLocation` returns the contents of a stored slotinfo as a packed
location, lookup via slotinfo id. -/
def slotInfoLocation (fpsp : FreePhysicalSlotPage) (slotinfo : Nat) : Nat :=
  packLocation (slotInfoRecord fpsp (slotinfoToOffset slotinfo))
    (slotInfoOffset fpsp (slotinfoToOffset slotinfo))

/-- `AllocateSlotInfo` allocates a place for a slotinfo: placeholder size 1,
placeholder location (1,1), and the allocated counter is incremented (the
`uint16` increment is absorbed by the byte-level truncation of the write). -/
def allocateSlotInfo (fpsp : FreePhysicalSlotPage) (slotinfo : Nat) :
    Nat × FreePhysicalSlotPage :=
  let offset := slotinfoToOffset slotinfo
  let p1 := setFreeSlotSize fpsp offset 1
  let p2 := setSlotInfo p1 offset 1 1
  let p3 := { p2 with
    record := writeUInt16 p2.record OFFSET_COUNT (freeSlotCount p2 + 1) }
  (offset, p3)

/-- `ReleaseSlotInfo` releases a place for a slotinfo: size 0, zero location,
and the allocated counter is decremented (`uint16` subtraction wraps modulo
`2^16`, modelled by adding `2^16 - 1`). -/
def releaseSlotInfo (fpsp : FreePhysicalSlotPage) (slotinfo : Nat) :
    Nat × FreePhysicalSlotPage :=
  let offset := slotinfoToOffset slotinfo
  let p1 := setFreeSlotSize fpsp offset 0
  let p2 := setSlotInfo p1 offset 0 0
  let p3 := { p2 with
    record := writeUInt16 p2.record OFFSET_COUNT
      ((freeSlotCount p2 + 65535) % 65536) }
  (offset, p3)

/-- `isAllocatedSlot` checks if a given slotinfo is allocated (its size as seen
through the cache is non-zero).  Returns the Go result with the updated page. -/
def isAllocatedSlot (fpsp : FreePhysicalSlotPage) (slotinfo : Nat) :
    Bool × FreePhysicalSlotPage :=
  let r := freeSlotSize fpsp (slotinfoToOffset slotinfo)
  (r.1 != 0, r.2)

/-- Loop of `FirstFreeSlotInfo` over the remaining slotinfo ids (the Go `for`
loop runs over `i = 0, …, maxSlots-1`, here materialised as a list). -/
def firstFreeSlotInfoAux (fpsp : FreePhysicalSlotPage) :
    List Nat → Int × FreePhysicalSlotPage
  | [] => (-1, fpsp)
  | i :: rest =>
    let r := isAllocatedSlot fpsp i
    if r.1 then firstFreeSlotInfoAux r.2 rest
    else (Int.ofNat i, r.2)

/-- `FirstFreeSlotInfo` returns the id of the first available slotinfo for
allocation, or -1 if nothing is available. -/
def firstFreeSlotInfo (fpsp : FreePhysicalSlotPage) :
    Int × FreePhysicalSlotPage :=
  firstFreeSlotInfoAux fpsp (List.range fpsp.maxSlots)

/-- Loop of `FindSlot` over the remaining slotinfo ids, carrying `bestSlot`,
`bestSlotWaste` and `maxSize` exactly as the Go loop does.  `waste` is the Go
`uint32` subtraction `slotinfoSize - minSize`, i.e. it wraps modulo `2^32`; the
Go guard `waste >= 0` is kept (it is vacuous on an unsigned integer). -/
def findSlotAux (minSize : Nat) :
    FreePhysicalSlotPage → List Nat → Int → Nat → Nat →
      Int × FreePhysicalSlotPage
  | fpsp, [], bestSlot, bestSlotWaste, maxSize =>
    if bestSlot ≠ -1 then
      if bestSlotWaste < fpsp.maxAcceptableWaste ∧
          bestSlotWaste < MAX_AVAILABLE_SIZE_DIFFERENCE then
        (bestSlot, fpsp)
      else (-(Int.ofNat maxSize), fpsp)
    else (-(Int.ofNat maxSize), fpsp)
  | fpsp, i :: rest, bestSlot, bestSlotWaste, maxSize =>
    let r := freeSlotSize fpsp (slotinfoToOffset i)
    let maxSize2 := if r.1 > maxSize then r.1 else maxSize
    let waste := (r.1 + 4294967296 - minSize) % 4294967296
    if 0 ≤ waste then
      if waste < OPTIMAL_WASTE_MARGIN then
        (Int.ofNat i, r.2)
      else if bestSlotWaste > waste then
        findSlotAux minSize r.2 rest (Int.ofNat i) waste maxSize2
      else
        findSlotAux minSize r.2 rest bestSlot bestSlotWaste maxSize2
    else
      findSlotAux minSize r.2 rest bestSlot bestSlotWaste maxSize2

/-- `FindSlot` finds a slot which is suitable for a given amount of data but
which is also not too big, to avoid wasting space.  `minSize` is a `uint32`
argument, hence the reduction modulo `2^32` at entry. -/
def findSlot (fpsp : FreePhysicalSlotPage) (minSize : Nat) :
    Int × FreePhysicalSlotPage :=
  findSlotAux (minSize % 4294967296) fpsp (List.range fpsp.maxSlots)
    (-1) ((fpsp.maxAcceptableWaste + 1) % 4294967296) 0

/-- The on-disk size field of row `i`: the bytes of the record that
`FreeSlotSize` would read for row `i` if the cache were empty. -/
def onDiskSize (fpsp : FreePhysicalSlotPage) (i : Nat) : Nat :=
  readUInt32 fpsp.record ((slotinfoToOffset i + LOCATION_SIZE) % 65536)

/-- Number of rows of the page whose on-disk size field is non-zero. -/
def countInUse (fpsp : FreePhysicalSlotPage) : Nat :=
  ((List.range fpsp.maxSlots).filter (fun i => onDiskSize fpsp i != 0)).length

/-- The maximum on-disk row size present on the page. -/
def pageMaxSize (fpsp : FreePhysicalSlotPage) : Nat :=
  (List.range fpsp.maxSlots).foldl (fun a i => max a (onDiskSize fpsp i)) 0

/-- Structural well-formedness of a page, as established by the constructor:
the cache is index-aligned with the rows, all rows lie inside the record, the
row area fits in the `uint16` offset space (so no offset arithmetic wraps), the
maximum acceptable waste is a `uint32` value, and the record holds bytes. -/
def pageWellFormed (fpsp : FreePhysicalSlotPage) : Prop :=
  fpsp.sizeCache.length = fpsp.maxSlots ∧
  OFFSET_DATA + fpsp.maxSlots * SLOT_INFO_SIZE ≤ fpsp.record.data.length ∧
  OFFSET_DATA + fpsp.maxSlots * SLOT_INFO_SIZE ≤ 65536 ∧
  fpsp.maxAcceptableWaste < 4294967296 ∧
  ∀ b ∈ fpsp.record.data, b < 256

instance (fpsp : FreePhysicalSlotPage) : Decidable (pageWellFormed fpsp) := by
  unfold pageWellFormed; infer_instance

/-- The documented cache invariant: every cache entry is either 0 (not yet
read, or vacant row) or equal to the row's on-disk size. -/
def cacheConsistent (fpsp : FreePhysicalSlotPage) : Prop :=
  ∀ i < fpsp.maxSlots,
    fpsp.sizeCache.getD i 0 = 0 ∨ fpsp.sizeCache.getD i 0 = onDiskSize fpsp i

instance (fpsp : FreePhysicalSlotPage) : Decidable (cacheConsistent fpsp) := by
  unfold cacheConsistent; infer_instance

/-- Spec-level description of `FirstFreeSlotInfo` (used for the refinement
claim C7): linear scan over the given row ids returning the first row whose
on-disk size field is 0, or -1. -/
def firstVacantFrom (fpsp : FreePhysicalSlotPage) : List Nat → Int
  | [] => -1
  | i :: rest =>
    if onDiskSize fpsp i = 0 then Int.ofNat i else firstVacantFrom fpsp rest

/-- Public operations of the page, for stating the bookkeeping invariant. -/
inductive PageOp where
  | alloc (i : Nat)
  | release (i : Nat)
  | find (minSize : Nat)
  | firstFree
  | readSize (i : Nat)

/-- Apply one public operation to a page (keeping only the state). -/
def applyOp (fpsp : FreePhysicalSlotPage) : PageOp → FreePhysicalSlotPage
  | .alloc i => (allocateSlotInfo fpsp i).2
  | .release i => (releaseSlotInfo fpsp i).2
  | .find m => (findSlot fpsp m).2
  | .firstFree => (firstFreeSlotInfo fpsp).2
  | .readSize i => (freeSlotSize fpsp (slotinfoToOffset i)).2

/-- Apply a sequence of public operations to a page. -/
def applyOps (fpsp : FreePhysicalSlotPage) (ops : List PageOp) :
    FreePhysicalSlotPage :=
  ops.foldl applyOp fpsp

/-- The documented preconditions of the operations: `AllocateSlotInfo` is only
called on in-range rows whose size field is 0, `ReleaseSlotInfo` only on
in-range rows whose size field is non-zero; the read-only operations have no
precondition (for reads, in-range ids). -/
def preOp (fpsp : FreePhysicalSlotPage) : PageOp → Bool
  | .alloc i => decide (i < fpsp.maxSlots) && (onDiskSize fpsp i == 0)
  | .release i => decide (i < fpsp.maxSlots) && (onDiskSize fpsp i != 0)
  | .find _ => true
  | .firstFree => true
  | .readSize i => decide (i < fpsp.maxSlots)

/-- A sequence of operations is legal when every operation satisfies its
precondition in the state where it runs. -/
def legalOps (fpsp : FreePhysicalSlotPage) : List PageOp → Bool
  | [] => true
  | op :: rest => preOp fpsp op && legalOps (applyOp fpsp op) rest

/-- Fold `FreeSlotSize` reads of the given rows over the page state (used to
state that reads never invalidate a previously written size). -/
def readRows (fpsp : FreePhysicalSlotPage) (js : List Nat) :
    FreePhysicalSlotPage :=
  js.foldl (fun p j => (freeSlotSize p (slotinfoToOffset j)).2) fpsp

/-! Byte-level infrastructure lemmas for the record model. -/

theorem writeByte_length (r : Record) (k v : Nat) :
    (writeByte r k v).data.length = r.data.length := by
  simp [writeByte]

theorem readByte_writeByte_ne (r : Record) {k j : Nat} (v : Nat) (h : k ≠ j) :
    readByte (writeByte r k v) j = readByte r j := by
  simp [readByte, writeByte, List.getD_eq_getElem?_getD, List.getElem?_set_ne h]

theorem readByte_writeByte_self (r : Record) {k : Nat} (v : Nat)
    (h : k < r.data.length) :
    readByte (writeByte r k v) k = v % 256 := by
  simp [readByte, writeByte, List.getD_eq_getElem?_getD, List.getElem?_set_self h]

theorem writeByte_bytes_lt (r : Record) (k v : Nat)
    (h : ∀ b ∈ r.data, b < 256) :
    ∀ b ∈ (writeByte r k v).data, b < 256 := by
  intro b hb
  rcases List.mem_or_eq_of_mem_set hb with h1 | h1
  · exact h b h1
  · omega

theorem readByte_lt (r : Record) (h : ∀ b ∈ r.data, b < 256) (k : Nat) :
    readByte r k < 256 := by
  unfold readByte
  rw [List.getD_eq_getElem?_getD]
  rcases hk : r.data[k]? with _ | b
  · simp
  · have hm : b ∈ r.data := by
      have hlt : k < r.data.length := by
        by_contra hge
        rw [List.getElem?_eq_none (by omega)] at hk
        exact Option.noConfusion hk
      rw [List.getElem?_eq_getElem hlt] at hk
      cases hk
      exact r.data.getElem_mem hlt
    simpa using h b hm

theorem writeUInt16_length (r : Record) (p v : Nat) :
    (writeUInt16 r p v).data.length = r.data.length := by
  simp [writeUInt16, writeByte_length]

theorem writeUInt32_length (r : Record) (p v : Nat) :
    (writeUInt32 r p v).data.length = r.data.length := by
  simp [writeUInt32, writeByte_length]

theorem writeUInt48_length (r : Record) (p v : Nat) :
    (writeUInt48 r p v).data.length = r.data.length := by
  simp [writeUInt48, writeByte_length]

theorem writeUInt16_bytes_lt (r : Record) (p v : Nat)
    (h : ∀ b ∈ r.data, b < 256) :
    ∀ b ∈ (writeUInt16 r p v).data, b < 256 := by
  unfold writeUInt16
  exact writeByte_bytes_lt _ _ _ (writeByte_bytes_lt _ _ _ h)

theorem writeUInt32_bytes_lt (r : Record) (p v : Nat)
    (h : ∀ b ∈ r.data, b < 256) :
    ∀ b ∈ (writeUInt32 r p v).data, b < 256 := by
  unfold writeUInt32
  exact writeByte_bytes_lt _ _ _ (writeByte_bytes_lt _ _ _
    (writeByte_bytes_lt _ _ _ (writeByte_bytes_lt _ _ _ h)))

theorem writeUInt48_bytes_lt (r : Record) (p v : Nat)
    (h : ∀ b ∈ r.data, b < 256) :
    ∀ b ∈ (writeUInt48 r p v).data, b < 256 := by
  unfold writeUInt48
  exact writeByte_bytes_lt _ _ _ (writeByte_bytes_lt _ _ _
    (writeByte_bytes_lt _ _ _ (writeByte_bytes_lt _ _ _
      (writeByte_bytes_lt _ _ _ (writeByte_bytes_lt _ _ _ h)))))

theorem readByte_writeUInt16_out (r : Record) {p j : Nat} (v : Nat)
    (h : j < p ∨ p + 2 ≤ j) :
    readByte (writeUInt16 r p v) j = readByte r j := by
  unfold writeUInt16
  rw [readByte_writeByte_ne _ _ (by omega), readByte_writeByte_ne _ _ (by omega)]

theorem readByte_writeUInt32_out (r : Record) {p j : Nat} (v : Nat)
    (h : j < p ∨ p + 4 ≤ j) :
    readByte (writeUInt32 r p v) j = readByte r j := by
  unfold writeUInt32
  rw [readByte_writeByte_ne _ _ (by omega), readByte_writeByte_ne _ _ (by omega),
    readByte_writeByte_ne _ _ (by omega), readByte_writeByte_ne _ _ (by omega)]

theorem readByte_writeUInt48_out (r : Record) {p j : Nat} (v : Nat)
    (h : j < p ∨ p + 6 ≤ j) :
    readByte (writeUInt48 r p v) j = readByte r j := by
  unfold writeUInt48
  rw [readByte_writeByte_ne _ _ (by omega), readByte_writeByte_ne _ _ (by omega),
    readByte_writeByte_ne _ _ (by omega), readByte_writeByte_ne _ _ (by omega),
    readByte_writeByte_ne _ _ (by omega), readByte_writeByte_ne _ _ (by omega)]

theorem readUInt16_writeUInt16_self (r : Record) (p v : Nat)
    (h : p + 2 ≤ r.data.length) :
    readUInt16 (writeUInt16 r p v) p = v % 65536 := by
  unfold readUInt16 writeUInt16
  rw [readByte_writeByte_ne _ _ (by omega),
    readByte_writeByte_self _ _ (by omega),
    readByte_writeByte_self _ _ (by rw [writeByte_length]; omega)]
  omega

theorem readUInt32_writeUInt32_self (r : Record) (p v : Nat)
    (h : p + 4 ≤ r.data.length) :
    readUInt32 (writeUInt32 r p v) p = v % 4294967296 := by
  unfold readUInt32 writeUInt32
  rw [readByte_writeByte_ne _ _ (by omega), readByte_writeByte_ne _ _ (by omega),
    readByte_writeByte_ne _ _ (by omega),
    readByte_writeByte_self _ _ (by omega)]
  rw [readByte_writeByte_ne _ _ (by omega), readByte_writeByte_ne _ _ (by omega),
    readByte_writeByte_self _ _ (by rw [writeByte_length]; omega)]
  rw [readByte_writeByte_ne _ _ (by omega),
    readByte_writeByte_self _ _ (by rw [writeByte_length, writeByte_length]; omega)]
  rw [readByte_writeByte_self _ _
    (by rw [writeByte_length, writeByte_length, writeByte_length]; omega)]
  omega

theorem readUInt48_writeUInt48_self (r : Record) (p v : Nat)
    (h : p + 6 ≤ r.data.length) :
    readUInt48 (writeUInt48 r p v) p = v % 281474976710656 := by
  unfold readUInt48 writeUInt48
  rw [readByte_writeByte_ne _ _ (by omega), readByte_writeByte_ne _ _ (by omega),
    readByte_writeByte_ne _ _ (by omega), readByte_writeByte_ne _ _ (by omega),
    readByte_writeByte_ne _ _ (by omega),
    readByte_writeByte_self _ _ (by omega)]
  rw [readByte_writeByte_ne _ _ (by omega), readByte_writeByte_ne _ _ (by omega),
    readByte_writeByte_ne _ _ (by omega), readByte_writeByte_ne _ _ (by omega),
    readByte_writeByte_self _ _ (by rw [writeByte_length]; omega)]
  rw [readByte_writeByte_ne _ _ (by omega), readByte_writeByte_ne _ _ (by omega),
    readByte_writeByte_ne _ _ (by omega),
    readByte_writeByte_self _ _ (by rw [writeByte_length, writeByte_length]; omega)]
  rw [readByte_writeByte_ne _ _ (by omega), readByte_writeByte_ne _ _ (by omega),
    readByte_writeByte_self _ _
      (by rw [writeByte_length, writeByte_length, writeByte_length]; omega)]
  rw [readByte_writeByte_ne _ _ (by omega),
    readByte_writeByte_self _ _
      (by rw [writeByte_length, writeByte_length, writeByte_length,
        writeByte_length]; omega)]
  rw [readByte_writeByte_self _ _
    (by rw [writeByte_length, writeByte_length, writeByte_length,
      writeByte_length, writeByte_length]; omega)]
  omega

theorem readUInt16_writeUInt16_out (r : Record) {p o : Nat} (v : Nat)
    (h : o + 2 ≤ p ∨ p + 2 ≤ o) :
    readUInt16 (writeUInt16 r p v) o = readUInt16 r o := by
  unfold readUInt16
  rw [readByte_writeUInt16_out _ _ (by omega),
    readByte_writeUInt16_out _ _ (by omega)]

theorem readUInt16_writeUInt32_out (r : Record) {p o : Nat} (v : Nat)
    (h : o + 2 ≤ p ∨ p + 4 ≤ o) :
    readUInt16 (writeUInt32 r p v) o = readUInt16 r o := by
  unfold readUInt16
  rw [readByte_writeUInt32_out _ _ (by omega),
    readByte_writeUInt32_out _ _ (by omega)]

theorem readUInt16_writeUInt48_out (r : Record) {p o : Nat} (v : Nat)
    (h : o + 2 ≤ p ∨ p + 6 ≤ o) :
    readUInt16 (writeUInt48 r p v) o = readUInt16 r o := by
  unfold readUInt16
  rw [readByte_writeUInt48_out _ _ (by omega),
    readByte_writeUInt48_out _ _ (by omega)]

theorem readUInt32_writeUInt16_out (r : Record) {p o : Nat} (v : Nat)
    (h : o + 4 ≤ p ∨ p + 2 ≤ o) :
    readUInt32 (writeUInt16 r p v) o = readUInt32 r o := by
  unfold readUInt32
  rw [readByte_writeUInt16_out _ _ (by omega),
    readByte_writeUInt16_out _ _ (by omega),
    readByte_writeUInt16_out _ _ (by omega),
    readByte_writeUInt16_out _ _ (by omega)]

theorem readUInt32_writeUInt32_out (r : Record) {p o : Nat} (v : Nat)
    (h : o + 4 ≤ p ∨ p + 4 ≤ o) :
    readUInt32 (writeUInt32 r p v) o = readUInt32 r o := by
  unfold readUInt32
  rw [readByte_writeUInt32_out _ _ (by omega),
    readByte_writeUInt32_out _ _ (by omega),
    readByte_writeUInt32_out _ _ (by omega),
    readByte_writeUInt32_out _ _ (by omega)]

theorem readUInt32_writeUInt48_out (r : Record) {p o : Nat} (v : Nat)
    (h : o + 4 ≤ p ∨ p + 6 ≤ o) :
    readUInt32 (writeUInt48 r p v) o = readUInt32 r o := by
  unfold readUInt32
  rw [readByte_writeUInt48_out _ _ (by omega),
    readByte_writeUInt48_out _ _ (by omega),
    readByte_writeUInt48_out _ _ (by omega),
    readByte_writeUInt48_out _ _ (by omega)]

theorem readUInt48_writeUInt16_out (r : Record) {p o : Nat}(v : Nat)
    (h : o + 6 ≤ p ∨ p + 2 ≤ o) :
    readUInt48 (writeUInt16 r p v) o = readUInt48 r o := by
  unfold readUInt48
  rw [readByte_writeUInt16_out _ _ (by omega),
    readByte_writeUInt16_out _ _ (by omega),
    readByte_writeUInt16_out _ _ (by omega),
    readByte_writeUInt16_out _ _ (by omega),
    readByte_writeUInt16_out _ _ (by omega),
    readByte_writeUInt16_out _ _ (by omega)]

theorem readUInt16_lt (r : Record) (h : ∀ b ∈ r.data, b < 256) (p : Nat) :
    readUInt16 r p < 65536 := by
  unfold readUInt16
  have h0 := readByte_lt r h p
  have h1 := readByte_lt r h (p + 1)
  omega

theorem readUInt32_lt (r : Record) (h : ∀ b ∈ r.data, b < 256) (p : Nat) :
    readUInt32 r p < 4294967296 := by
  unfold readUInt32
  have h0 := readByte_lt r h p
  have h1 := readByte_lt r h (p + 1)
  have h2 := readByte_lt r h (p + 2)
  have h3 := readByte_lt r h (p + 3)
  omega

/-! Offset arithmetic and `FreeSlotSize` step lemmas. -/

theorem slotinfoToOffset_eq {maxSlots i : Nat}
    (hbound : OFFSET_DATA + maxSlots * SLOT_INFO_SIZE ≤ 65536)
    (hi : i < maxSlots) :
    slotinfoToOffset i = 4 + i * 12 := by
  unfold slotinfoToOffset
  simp only [OFFSET_DATA, OFFSET_COUNT, viewOFFSET_DATA, SIZE_SHORT,
    SLOT_INFO_SIZE, LOCATION_SIZE, SIZE_INFO_SIZE] at hbound ⊢
  omega

theorem offsetToSlotinfo_slotinfoToOffset {maxSlots i : Nat}
    (hbound : OFFSET_DATA + maxSlots * SLOT_INFO_SIZE ≤ 65536)
    (hi : i < maxSlots) :
    offsetToSlotinfo (slotinfoToOffset i) = i := by
  rw [slotinfoToOffset_eq hbound hi]
  unfold offsetToSlotinfo
  simp only [OFFSET_DATA, OFFSET_COUNT, viewOFFSET_DATA, SIZE_SHORT,
    SLOT_INFO_SIZE, LOCATION_SIZE, SIZE_INFO_SIZE] at hbound ⊢
  omega

theorem sizeFieldOffset_eq {maxSlots i : Nat}
    (hbound : OFFSET_DATA + maxSlots * SLOT_INFO_SIZE ≤ 65536)
    (hi : i < maxSlots) :
    (slotinfoToOffset i + LOCATION_SIZE) % 65536 = 12 + i * 12 := by
  rw [slotinfoToOffset_eq hbound hi]
  simp only [OFFSET_DATA, OFFSET_COUNT, viewOFFSET_DATA, SIZE_SHORT,
    SLOT_INFO_SIZE, LOCATION_SIZE, SIZE_INFO_SIZE] at hbound ⊢
  omega

theorem onDiskSize_eq {i : Nat} (fpsp : FreePhysicalSlotPage)
    (hbound : OFFSET_DATA + fpsp.maxSlots * SLOT_INFO_SIZE ≤ 65536)
    (hi : i < fpsp.maxSlots) :
    onDiskSize fpsp i = readUInt32 fpsp.record (12 + i * 12) := by
  unfold onDiskSize
  rw [sizeFieldOffset_eq hbound hi]

theorem onDiskSize_congr {fpsp fpsp2 : FreePhysicalSlotPage}
    (h : fpsp2.record = fpsp.record) (i : Nat) :
    onDiskSize fpsp2 i = onDiskSize fpsp i := by
  unfold onDiskSize
  rw [h]

theorem freeSlotCount_congr {fpsp fpsp2 : FreePhysicalSlotPage}
    (h : fpsp2.record = fpsp.record) :
    freeSlotCount fpsp2 = freeSlotCount fpsp := by
  unfold freeSlotCount
  rw [h]


theorem freeSlotSize_frame (fpsp : FreePhysicalSlotPage) (i : Nat)
    (hwf : pageWellFormed fpsp) (hi : i < fpsp.maxSlots) :
    (freeSlotSize fpsp (slotinfoToOffset i)).2.record = fpsp.record ∧
    (freeSlotSize fpsp (slotinfoToOffset i)).2.maxSlots = fpsp.maxSlots ∧
    (freeSlotSize fpsp (slotinfoToOffset i)).2.maxAcceptableWaste =
      fpsp.maxAcceptableWaste ∧
    pageWellFormed (freeSlotSize fpsp (slotinfoToOffset i)).2 ∧
    (∀ j, j ≠ i →
      (freeSlotSize fpsp (slotinfoToOffset i)).2.sizeCache.getD j 0 =
        fpsp.sizeCache.getD j 0) ∧
    ((freeSlotSize fpsp (slotinfoToOffset i)).2.sizeCache.getD i 0 =
        fpsp.sizeCache.getD i 0 ∨
      (freeSlotSize fpsp (slotinfoToOffset i)).2.sizeCache.getD i 0 =
        onDiskSize fpsp i) ∧
    (freeSlotSize fpsp (slotinfoToOffset i)).1 =
      (if fpsp.sizeCache.getD i 0 = 0 then onDiskSize fpsp i
        else fpsp.sizeCache.getD i 0) := by
  obtain ⟨hlen, hrec, hb16, hmaw, hbytes⟩ := hwf
  have hoff := offsetToSlotinfo_slotinfoToOffset hb16 hi
  by_cases hz : fpsp.sizeCache.getD i 0 = 0
  · have hget : (fpsp.sizeCache.set i (onDiskSize fpsp i)).getD i 0 =
        onDiskSize fpsp i := by
      rw [List.getD_eq_getElem?_getD, List.getElem?_set_self (by omega)]
      rfl
    have hstep : freeSlotSize fpsp (slotinfoToOffset i) =
        (onDiskSize fpsp i,
          { fpsp with sizeCache := fpsp.sizeCache.set i (onDiskSize fpsp i) }) := by
      simp only [freeSlotSize, hoff]
      rw [if_pos hz]
      have honds : readUInt32 fpsp.record ((slotinfoToOffset i + LOCATION_SIZE) % 65536) =
          onDiskSize fpsp i := rfl
      rw [honds, hget]
    rw [hstep]
    refine ⟨rfl, rfl, rfl, ?_, ?_, ?_, ?_⟩
    · refine ⟨?_, hrec, hb16, hmaw, hbytes⟩
      simpa using hlen
    · intro j hj
      show (fpsp.sizeCache.set i (onDiskSize fpsp i)).getD j 0 =
        fpsp.sizeCache.getD j 0
      rw [List.getD_eq_getElem?_getD, List.getD_eq_getElem?_getD,
        List.getElem?_set_ne (by omega)]
    · right
      exact hget
    · rw [if_pos hz]
  · have hstep : freeSlotSize fpsp (slotinfoToOffset i) =
        (fpsp.sizeCache.getD i 0, fpsp) := by
      simp only [freeSlotSize, hoff]
      rw [if_neg hz]
    rw [hstep]
    exact ⟨rfl, rfl, rfl, ⟨hlen, hrec, hb16, hmaw, hbytes⟩,
      fun j _ => rfl, Or.inl rfl, by rw [if_neg hz]⟩

theorem freeSlotSize_step (fpsp : FreePhysicalSlotPage) (i : Nat)
    (hwf : pageWellFormed fpsp) (hcc : cacheConsistent fpsp)
    (hi : i < fpsp.maxSlots) :
    (freeSlotSize fpsp (slotinfoToOffset i)).1 = onDiskSize fpsp i ∧
    (freeSlotSize fpsp (slotinfoToOffset i)).2.record = fpsp.record ∧
    (freeSlotSize fpsp (slotinfoToOffset i)).2.maxSlots = fpsp.maxSlots ∧
    (freeSlotSize fpsp (slotinfoToOffset i)).2.maxAcceptableWaste =
      fpsp.maxAcceptableWaste ∧
    pageWellFormed (freeSlotSize fpsp (slotinfoToOffset i)).2 ∧
    cacheConsistent (freeSlotSize fpsp (slotinfoToOffset i)).2 := by
  obtain ⟨hr, hm, hw, hwf2, hother, hself, hval⟩ :=
    freeSlotSize_frame fpsp i hwf hi
  have hres : (freeSlotSize fpsp (slotinfoToOffset i)).1 = onDiskSize fpsp i := by
    rw [hval]
    by_cases hz : fpsp.sizeCache.getD i 0 = 0
    · rw [if_pos hz]
    · rw [if_neg hz]
      rcases hcc i hi with h0 | h0
      · exact absurd h0 hz
      · exact h0
  refine ⟨hres, hr, hm, hw, hwf2, ?_⟩
  intro j hj
  rw [hm] at hj
  rw [onDiskSize_congr hr]
  by_cases hji : j = i
  · subst hji
    rcases hself with h | h
    · rw [h]
      exact hcc j hj
    · right
      exact h
  · rw [hother j hji]
    exact hcc j hj

/-! Effects of `ReleaseSlotInfo` and `AllocateSlotInfo` on the page state. -/

theorem releaseSlotInfo_effects (fpsp : FreePhysicalSlotPage) (i : Nat)
    (hwf : pageWellFormed fpsp) (hi : i < fpsp.maxSlots) :
    freeSlotCount (releaseSlotInfo fpsp i).2 =
      (freeSlotCount fpsp + 65535) % 65536 ∧
    onDiskSize (releaseSlotInfo fpsp i).2 i = 0 ∧
    (∀ j, j ≠ i → j < fpsp.maxSlots →
      onDiskSize (releaseSlotInfo fpsp i).2 j = onDiskSize fpsp j) ∧
    (releaseSlotInfo fpsp i).2.maxSlots = fpsp.maxSlots ∧
    (releaseSlotInfo fpsp i).2.maxAcceptableWaste = fpsp.maxAcceptableWaste ∧
    pageWellFormed (releaseSlotInfo fpsp i).2 ∧
    (releaseSlotInfo fpsp i).2.sizeCache.getD i 0 = 0 ∧
    (∀ j, j ≠ i → (releaseSlotInfo fpsp i).2.sizeCache.getD j 0 =
      fpsp.sizeCache.getD j 0) := by
  obtain ⟨hlen, hrec, hb16, hmaw, hbytes⟩ := hwf
  have hrec' : 4 + fpsp.maxSlots * 12 ≤ fpsp.record.data.length := by
    simpa [OFFSET_DATA, OFFSET_COUNT, viewOFFSET_DATA, SIZE_SHORT,
      SLOT_INFO_SIZE, LOCATION_SIZE, SIZE_INFO_SIZE] using hrec
  have hb16' : 4 + fpsp.maxSlots * 12 ≤ 65536 := by
    simpa [OFFSET_DATA, OFFSET_COUNT, viewOFFSET_DATA, SIZE_SHORT,
      SLOT_INFO_SIZE, LOCATION_SIZE, SIZE_INFO_SIZE] using hb16
  have hoff := slotinfoToOffset_eq hb16 hi
  have hmod : (4 + i * 12 + LOCATION_SIZE) % 65536 = 12 + i * 12 := by
    simp only [LOCATION_SIZE]
    omega
  have hback : offsetToSlotinfo (4 + i * 12) = i := by
    rw [← hoff]
    exact offsetToSlotinfo_slotinfoToOffset hb16 hi
  have h2 : (releaseSlotInfo fpsp i).2 =
      { fpsp with
        sizeCache := fpsp.sizeCache.set i (0 % 4294967296)
        record := writeUInt16
          (writeUInt16 (writeUInt48 (writeUInt32 fpsp.record (12 + i * 12) 0)
            (4 + i * 12) 0) (4 + i * 12 + 6) 0) 2
          ((readUInt16 (writeUInt16 (writeUInt48
            (writeUInt32 fpsp.record (12 + i * 12) 0)
            (4 + i * 12) 0) (4 + i * 12 + 6) 0) 2 + 65535) % 65536) } := by
    simp only [releaseSlotInfo, setFreeSlotSize, setSlotInfo, freeSlotCount,
      OFFSET_COUNT, viewOFFSET_DATA, hoff, hmod, hback]
  have hl1 : (writeUInt32 fpsp.record (12 + i * 12) 0).data.length =
      fpsp.record.data.length := writeUInt32_length _ _ _
  have hl2 : (writeUInt48 (writeUInt32 fpsp.record (12 + i * 12) 0)
      (4 + i * 12) 0).data.length = fpsp.record.data.length := by
    rw [writeUInt48_length, hl1]
  have hl3 : (writeUInt16 (writeUInt48 (writeUInt32 fpsp.record (12 + i * 12) 0)
      (4 + i * 12) 0) (4 + i * 12 + 6) 0).data.length =
      fpsp.record.data.length := by
    rw [writeUInt16_length, hl2]
  have hcount0 : readUInt16 (writeUInt16 (writeUInt48
      (writeUInt32 fpsp.record (12 + i * 12) 0)
      (4 + i * 12) 0) (4 + i * 12 + 6) 0) 2 = freeSlotCount fpsp := by
    rw [readUInt16_writeUInt16_out _ _ (by omega),
      readUInt16_writeUInt48_out _ _ (by omega),
      readUInt16_writeUInt32_out _ _ (by omega)]
    rfl
  refine ⟨?_, ?_, ?_, ?_, ?_, ?_, ?_, ?_⟩
  · rw [h2]
    show readUInt16 _ OFFSET_COUNT = _
    simp only [OFFSET_COUNT, viewOFFSET_DATA]
    rw [readUInt16_writeUInt16_self _ _ _ (by rw [hl3]; omega), hcount0]
    omega
  · rw [h2]
    show readUInt32 _ ((slotinfoToOffset i + LOCATION_SIZE) % 65536) = 0
    rw [hoff, hmod]
    rw [readUInt32_writeUInt16_out _ _ (by omega),
      readUInt32_writeUInt16_out _ _ (by omega),
      readUInt32_writeUInt48_out _ _ (by omega),
      readUInt32_writeUInt32_self _ _ _ (by omega)]
  · intro j hji hj
    rw [h2]
    show readUInt32 _ ((slotinfoToOffset j + LOCATION_SIZE) % 65536) = _
    have hoffj := slotinfoToOffset_eq hb16 hj
    have hmodj : (4 + j * 12 + LOCATION_SIZE) % 65536 = 12 + j * 12 := by
      simp only [LOCATION_SIZE]
      omega
    rw [hoffj, hmodj]
    rw [readUInt32_writeUInt16_out _ _ (by omega),
      readUInt32_writeUInt16_out _ _ (by omega),
      readUInt32_writeUInt48_out _ _ (by omega),
      readUInt32_writeUInt32_out _ _ (by omega)]
    unfold onDiskSize
    rw [hoffj, hmodj]
  · rw [h2]
  · rw [h2]
  · rw [h2]
    refine ⟨?_, ?_, ?_, hmaw, ?_⟩
    · simpa using hlen
    · show OFFSET_DATA + fpsp.maxSlots * SLOT_INFO_SIZE ≤ _
      rw [writeUInt16_length, hl3]
      exact hrec
    · exact hb16
    · show ∀ b ∈ (writeUInt16 _ 2 _).data, b < 256
      exact writeUInt16_bytes_lt _ _ _ (writeUInt16_bytes_lt _ _ _
        (writeUInt48_bytes_lt _ _ _ (writeUInt32_bytes_lt _ _ _ hbytes)))
  · rw [h2]
    show (fpsp.sizeCache.set i (0 % 4294967296)).getD i 0 = 0
    rw [List.getD_eq_getElem?_getD, List.getElem?_set_self (by omega)]
    rfl
  · intro j hj
    rw [h2]
    show (fpsp.sizeCache.set i (0 % 4294967296)).getD j 0 =
      fpsp.sizeCache.getD j 0
    rw [List.getD_eq_getElem?_getD, List.getD_eq_getElem?_getD,
      List.getElem?_set_ne (by omega)]

theorem allocateSlotInfo_effects (fpsp : FreePhysicalSlotPage) (i : Nat)
    (hwf : pageWellFormed fpsp) (hi : i < fpsp.maxSlots) :
    freeSlotCount (allocateSlotInfo fpsp i).2 =
      (freeSlotCount fpsp + 1) % 65536 ∧
    onDiskSize (allocateSlotInfo fpsp i).2 i = 1 ∧
    (∀ j, j ≠ i → j < fpsp.maxSlots →
      onDiskSize (allocateSlotInfo fpsp i).2 j = onDiskSize fpsp j) ∧
    (allocateSlotInfo fpsp i).2.maxSlots = fpsp.maxSlots ∧
    (allocateSlotInfo fpsp i).2.maxAcceptableWaste = fpsp.maxAcceptableWaste ∧
    pageWellFormed (allocateSlotInfo fpsp i).2 ∧
    (allocateSlotInfo fpsp i).2.sizeCache.getD i 0 = 1 ∧
    (∀ j, j ≠ i → (allocateSlotInfo fpsp i).2.sizeCache.getD j 0 =
      fpsp.sizeCache.getD j 0) ∧
    slotInfoLocation (allocateSlotInfo fpsp i).2 i = packLocation 1 1 := by
  obtain ⟨hlen, hrec, hb16, hmaw, hbytes⟩ := hwf
  have hrec' : 4 + fpsp.maxSlots * 12 ≤ fpsp.record.data.length := by
    simpa [OFFSET_DATA, OFFSET_COUNT, viewOFFSET_DATA, SIZE_SHORT,
      SLOT_INFO_SIZE, LOCATION_SIZE, SIZE_INFO_SIZE] using hrec
  have hb16' : 4 + fpsp.maxSlots * 12 ≤ 65536 := by
    simpa [OFFSET_DATA, OFFSET_COUNT, viewOFFSET_DATA, SIZE_SHORT,
      SLOT_INFO_SIZE, LOCATION_SIZE, SIZE_INFO_SIZE] using hb16
  have hoff := slotinfoToOffset_eq hb16 hi
  have hmod : (4 + i * 12 + LOCATION_SIZE) % 65536 = 12 + i * 12 := by
    simp only [LOCATION_SIZE]
    omega
  have hback : offsetToSlotinfo (4 + i * 12) = i := by
    rw [← hoff]
    exact offsetToSlotinfo_slotinfoToOffset hb16 hi
  have h2 : (allocateSlotInfo fpsp i).2 =
      { fpsp with
        sizeCache := fpsp.sizeCache.set i (1 % 4294967296)
        record := writeUInt16
          (writeUInt16 (writeUInt48 (writeUInt32 fpsp.record (12 + i * 12) 1)
            (4 + i * 12) 1) (4 + i * 12 + 6) 1) 2
          (readUInt16 (writeUInt16 (writeUInt48
            (writeUInt32 fpsp.record (12 + i * 12) 1)
            (4 + i * 12) 1) (4 + i * 12 + 6) 1) 2 + 1) } := by
    simp only [allocateSlotInfo, setFreeSlotSize, setSlotInfo, freeSlotCount,
      OFFSET_COUNT, viewOFFSET_DATA, hoff, hmod, hback]
  have hl1 : (writeUInt32 fpsp.record (12 + i * 12) 1).data.length =
      fpsp.record.data.length := writeUInt32_length _ _ _
  have hl2 : (writeUInt48 (writeUInt32 fpsp.record (12 + i * 12) 1)
      (4 + i * 12) 1).data.length = fpsp.record.data.length := by
    rw [writeUInt48_length, hl1]
  have hl3 : (writeUInt16 (writeUInt48 (writeUInt32 fpsp.record (12 + i * 12) 1)
      (4 + i * 12) 1) (4 + i * 12 + 6) 1).data.length =
      fpsp.record.data.length := by
    rw [writeUInt16_length, hl2]
  have hcount0 : readUInt16 (writeUInt16 (writeUInt48
      (writeUInt32 fpsp.record (12 + i * 12) 1)
      (4 + i * 12) 1) (4 + i * 12 + 6) 1) 2 = freeSlotCount fpsp := by
    rw [readUInt16_writeUInt16_out _ _ (by omega),
      readUInt16_writeUInt48_out _ _ (by omega),
      readUInt16_writeUInt32_out _ _ (by omega)]
    rfl
  refine ⟨?_, ?_, ?_, ?_, ?_, ?_, ?_, ?_, ?_⟩
  · rw [h2]
    show readUInt16 _ OFFSET_COUNT = _
    simp only [OFFSET_COUNT, viewOFFSET_DATA]
    rw [readUInt16_writeUInt16_self _ _ _ (by rw [hl3]; omega), hcount0]
  · rw [h2]
    show readUInt32 _ ((slotinfoToOffset i + LOCATION_SIZE) % 65536) = 1
    rw [hoff, hmod]
    rw [readUInt32_writeUInt16_out _ _ (by omega),
      readUInt32_writeUInt16_out _ _ (by omega),
      readUInt32_writeUInt48_out _ _ (by omega),
      readUInt32_writeUInt32_self _ _ _ (by omega)]
  · intro j hji hj
    rw [h2]
    show readUInt32 _ ((slotinfoToOffset j + LOCATION_SIZE) % 65536) = _
    have hoffj := slotinfoToOffset_eq hb16 hj
    have hmodj : (4 + j * 12 + LOCATION_SIZE) % 65536 = 12 + j * 12 := by
      simp only [LOCATION_SIZE]
      omega
    rw [hoffj, hmodj]
    rw [readUInt32_writeUInt16_out _ _ (by omega),
      readUInt32_writeUInt16_out _ _ (by omega),
      readUInt32_writeUInt48_out _ _ (by omega),
      readUInt32_writeUInt32_out _ _ (by omega)]
    unfold onDiskSize
    rw [hoffj, hmodj]
  · rw [h2]
  · rw [h2]
  · rw [h2]
    refine ⟨?_, ?_, ?_, hmaw, ?_⟩
    · simpa using hlen
    · show OFFSET_DATA + fpsp.maxSlots * SLOT_INFO_SIZE ≤ _
      rw [writeUInt16_length, hl3]
      exact hrec
    · exact hb16
    · show ∀ b ∈ (writeUInt16 _ 2 _).data, b < 256
      exact writeUInt16_bytes_lt _ _ _ (writeUInt16_bytes_lt _ _ _
        (writeUInt48_bytes_lt _ _ _ (writeUInt32_bytes_lt _ _ _ hbytes)))
  · rw [h2]
    show (fpsp.sizeCache.set i (1 % 4294967296)).getD i 0 = 1
    rw [List.getD_eq_getElem?_getD, List.getElem?_set_self (by omega)]
    rfl
  · intro j hj
    rw [h2]
    show (fpsp.sizeCache.set i (1 % 4294967296)).getD j 0 =
      fpsp.sizeCache.getD j 0
    rw [List.getD_eq_getElem?_getD, List.getD_eq_getElem?_getD,
      List.getElem?_set_ne (by omega)]
  · rw [h2]
    show packLocation (readUInt48 _ (slotinfoToOffset i))
      (readUInt16 _ (slotinfoToOffset i + 6)) = packLocation 1 1
    rw [hoff]
    rw [readUInt48_writeUInt16_out _ _ (by omega),
      readUInt48_writeUInt16_out _ _ (by omega),
      readUInt48_writeUInt48_self _ _ _ (by omega)]
    rw [readUInt16_writeUInt16_out _ _ (by omega),
      readUInt16_writeUInt16_self _ _ _ (by rw [hl2]; omega)]

/-! Counting and loop-frame lemmas. -/

theorem filter_length_flip_on (p q : Nat → Bool) (i : Nat) :
    ∀ l : List Nat, i ∈ l → l.Nodup →
    (∀ j ∈ l, j ≠ i → q j = p j) → p i = false → q i = true →
    (l.filter q).length = (l.filter p).length + 1 := by
  intro l
  induction l with
  | nil => intro hmem; cases hmem
  | cons a t ih =>
    intro hmem hnd hsame hpi hqi
    obtain ⟨hat, hndt⟩ := List.nodup_cons.mp hnd
    rcases List.mem_cons.mp hmem with rfl | hmem'
    · have hfilt : t.filter q = t.filter p := by
        apply List.filter_congr
        intro x hx
        exact hsame x (List.mem_cons_of_mem _ hx) (by rintro rfl; exact hat hx)
      rw [List.filter_cons_of_pos hqi, List.filter_cons_of_neg (by simp [hpi]),
        List.length_cons, hfilt]
    · have hai : a ≠ i := by rintro rfl; exact hat hmem'
      have hqa : q a = p a := hsame a (List.mem_cons_self a t) hai
      have hrec := ih hmem' hndt
        (fun j hj hji => hsame j (List.mem_cons_of_mem _ hj) hji) hpi hqi
      by_cases hpa : p a = true
      · rw [List.filter_cons_of_pos (hqa.trans hpa), List.filter_cons_of_pos hpa,
          List.length_cons, List.length_cons, hrec]
      · rw [List.filter_cons_of_neg (by rw [hqa]; exact hpa),
          List.filter_cons_of_neg hpa, hrec]

theorem countInUse_congr {fpsp fpsp2 : FreePhysicalSlotPage}
    (hr : fpsp2.record = fpsp.record) (hm : fpsp2.maxSlots = fpsp.maxSlots) :
    countInUse fpsp2 = countInUse fpsp := by
  unfold countInUse
  rw [hm, List.filter_congr (fun x _ => by rw [onDiskSize_congr hr])]

theorem countInUse_le (fpsp : FreePhysicalSlotPage) :
    countInUse fpsp ≤ fpsp.maxSlots := by
  unfold countInUse
  calc ((List.range fpsp.maxSlots).filter fun i => onDiskSize fpsp i != 0).length
      ≤ (List.range fpsp.maxSlots).length := List.length_filter_le _ _
    _ = fpsp.maxSlots := List.length_range _

theorem maxSlots_le (fpsp : FreePhysicalSlotPage)
    (hwf : pageWellFormed fpsp) : fpsp.maxSlots ≤ 5461 := by
  have hb16 := hwf.2.2.1
  simp only [OFFSET_DATA, OFFSET_COUNT, viewOFFSET_DATA, SIZE_SHORT,
    SLOT_INFO_SIZE, LOCATION_SIZE, SIZE_INFO_SIZE] at hb16
  omega

theorem findSlotAux_frame (m : Nat) (idxs : List Nat) :
    ∀ (fpsp : FreePhysicalSlotPage) (bestSlot : Int) (bw ms : Nat),
    pageWellFormed fpsp → (∀ i ∈ idxs, i < fpsp.maxSlots) →
    (findSlotAux m fpsp idxs bestSlot bw ms).2.record = fpsp.record ∧
    (findSlotAux m fpsp idxs bestSlot bw ms).2.maxSlots = fpsp.maxSlots ∧
    (findSlotAux m fpsp idxs bestSlot bw ms).2.maxAcceptableWaste =
      fpsp.maxAcceptableWaste ∧
    pageWellFormed (findSlotAux m fpsp idxs bestSlot bw ms).2 ∧
    ∀ j, (findSlotAux m fpsp idxs bestSlot bw ms).2.sizeCache.getD j 0 =
        fpsp.sizeCache.getD j 0 ∨
      (findSlotAux m fpsp idxs bestSlot bw ms).2.sizeCache.getD j 0 =
        onDiskSize fpsp j := by
  induction idxs with
  | nil =>
    intro fpsp bestSlot bw ms hwf _
    have hsnd : (findSlotAux m fpsp [] bestSlot bw ms).2 = fpsp := by
      unfold findSlotAux
      split_ifs <;> rfl
    rw [hsnd]
    exact ⟨rfl, rfl, rfl, hwf, fun j => Or.inl rfl⟩
  | cons a t ih =>
    intro fpsp bestSlot bw ms hwf hidxs
    have ha : a < fpsp.maxSlots := hidxs a (List.mem_cons_self a t)
    obtain ⟨hr, hm, hw, hwf2, hother, hself, hval⟩ :=
      freeSlotSize_frame fpsp a hwf ha
    have hcache : ∀ j,
        (freeSlotSize fpsp (slotinfoToOffset a)).2.sizeCache.getD j 0 =
          fpsp.sizeCache.getD j 0 ∨
        (freeSlotSize fpsp (slotinfoToOffset a)).2.sizeCache.getD j 0 =
          onDiskSize fpsp j := by
      intro j
      by_cases hj : j = a
      · subst hj
        exact hself
      · exact Or.inl (hother j hj)
    have ht : ∀ i ∈ t, i < (freeSlotSize fpsp (slotinfoToOffset a)).2.maxSlots := by
      rw [hm]
      exact fun i hi => hidxs i (List.mem_cons_of_mem _ hi)
    have hcomp : ∀ (bs : Int) (bw2 ms2 : Nat),
        (findSlotAux m (freeSlotSize fpsp (slotinfoToOffset a)).2 t bs bw2 ms2).2.record =
          fpsp.record ∧
        (findSlotAux m (freeSlotSize fpsp (slotinfoToOffset a)).2 t bs bw2 ms2).2.maxSlots =
          fpsp.maxSlots ∧
        (findSlotAux m (freeSlotSize fpsp (slotinfoToOffset a)).2 t bs bw2 ms2).2.maxAcceptableWaste =
          fpsp.maxAcceptableWaste ∧
        pageWellFormed
          (findSlotAux m (freeSlotSize fpsp (slotinfoToOffset a)).2 t bs bw2 ms2).2 ∧
        ∀ j, (findSlotAux m (freeSlotSize fpsp (slotinfoToOffset a)).2 t bs bw2 ms2).2.sizeCache.getD j 0 =
            fpsp.sizeCache.getD j 0 ∨
          (findSlotAux m (freeSlotSize fpsp (slotinfoToOffset a)).2 t bs bw2 ms2).2.sizeCache.getD j 0 =
            onDiskSize fpsp j := by
      intro bs bw2 ms2
      obtain ⟨hr2, hm2, hw2, hwf3, hc2⟩ := ih _ bs bw2 ms2 hwf2 ht
      refine ⟨hr2.trans hr, hm2.trans hm, hw2.trans hw, hwf3, ?_⟩
      intro j
      rcases hc2 j with h | h
      · rcases hcache j with h3 | h3
        · exact Or.inl (h.trans h3)
        · exact Or.inr (h.trans h3)
      · rw [onDiskSize_congr hr] at h
        exact Or.inr h
    show _ ∧ _ ∧ _ ∧ _ ∧ _
    simp only [findSlotAux]
    split_ifs <;> first
      | exact ⟨hr, hm, hw, hwf2, hcache⟩
      | exact hcomp _ _ _

theorem firstFreeSlotInfoAux_frame (idxs : List Nat) :
    ∀ (fpsp : FreePhysicalSlotPage),
    pageWellFormed fpsp → (∀ i ∈ idxs, i < fpsp.maxSlots) →
    (firstFreeSlotInfoAux fpsp idxs).2.record = fpsp.record ∧
    (firstFreeSlotInfoAux fpsp idxs).2.maxSlots = fpsp.maxSlots ∧
    (firstFreeSlotInfoAux fpsp idxs).2.maxAcceptableWaste =
      fpsp.maxAcceptableWaste ∧
    pageWellFormed (firstFreeSlotInfoAux fpsp idxs).2 := by
  induction idxs with
  | nil =>
    intro fpsp hwf _
    exact ⟨rfl, rfl, rfl, hwf⟩
  | cons a t ih =>
    intro fpsp hwf hidxs
    have ha : a < fpsp.maxSlots := hidxs a (List.mem_cons_self a t)
    obtain ⟨hr, hm, hw, hwf2, hother, hself, hval⟩ :=
      freeSlotSize_frame fpsp a hwf ha
    have ht : ∀ i ∈ t, i < (freeSlotSize fpsp (slotinfoToOffset a)).2.maxSlots := by
      rw [hm]
      exact fun i hi => hidxs i (List.mem_cons_of_mem _ hi)
    show _ ∧ _ ∧ _ ∧ _
    simp only [firstFreeSlotInfoAux, isAllocatedSlot]
    split_ifs with h1
    · obtain ⟨hr2, hm2, hw2, hwf3⟩ := ih _ hwf2 ht
      exact ⟨hr2.trans hr, hm2.trans hm, hw2.trans hw, hwf3⟩
    · exact ⟨hr, hm, hw, hwf2⟩

theorem freeSlotCount_lt (fpsp : FreePhysicalSlotPage)
    (hwf : pageWellFormed fpsp) : freeSlotCount fpsp < 65536 :=
  readUInt16_lt fpsp.record hwf.2.2.2.2 OFFSET_COUNT

theorem applyOp_preserves (fpsp : FreePhysicalSlotPage) (op : PageOp)
    (hwf : pageWellFormed fpsp) (hpre : preOp fpsp op = true)
    (hinv : freeSlotCount fpsp = countInUse fpsp) :
    pageWellFormed (applyOp fpsp op) ∧
    freeSlotCount (applyOp fpsp op) = countInUse (applyOp fpsp op) := by
  cases op with
  | alloc i =>
    simp only [applyOp]
    simp only [preOp, Bool.and_eq_true, decide_eq_true_eq, beq_iff_eq] at hpre
    obtain ⟨hi, hz⟩ := hpre
    obtain ⟨hcount, hrowi, hframe, hm, hw, hwf2, _, _, _⟩ :=
      allocateSlotInfo_effects fpsp i hwf hi
    have hms := maxSlots_le fpsp hwf
    have hc := countInUse_le fpsp
    have hflip : ((List.range fpsp.maxSlots).filter
          (fun j => onDiskSize (allocateSlotInfo fpsp i).2 j != 0)).length =
        ((List.range fpsp.maxSlots).filter
          (fun j => onDiskSize fpsp j != 0)).length + 1 := by
      apply filter_length_flip_on _ _ i _ (List.mem_range.mpr hi)
        (List.nodup_range _)
      · intro j hj hji
        rw [hframe j hji (List.mem_range.mp hj)]
      · simp [hz]
      · simp [hrowi]
    have hcnew : countInUse (allocateSlotInfo fpsp i).2 =
        countInUse fpsp + 1 := by
      unfold countInUse
      rw [hm, hflip]
    refine ⟨hwf2, ?_⟩
    rw [hcount, hinv, hcnew]
    have hc2 : countInUse fpsp ≤ 5461 := le_trans hc hms
    omega
  | release i =>
    simp only [applyOp]
    simp only [preOp, Bool.and_eq_true, decide_eq_true_eq, bne_iff_ne,
      ne_eq] at hpre
    obtain ⟨hi, hz⟩ := hpre
    obtain ⟨hcount, hrowi, hframe, hm, hw, hwf2, _, _⟩ :=
      releaseSlotInfo_effects fpsp i hwf hi
    have hms := maxSlots_le fpsp hwf
    have hc := countInUse_le fpsp
    have hflip : ((List.range fpsp.maxSlots).filter
          (fun j => onDiskSize fpsp j != 0)).length =
        ((List.range fpsp.maxSlots).filter
          (fun j => onDiskSize (releaseSlotInfo fpsp i).2 j != 0)).length + 1 := by
      apply filter_length_flip_on _ _ i _ (List.mem_range.mpr hi)
        (List.nodup_range _)
      · intro j hj hji
        rw [hframe j hji (List.mem_range.mp hj)]
      · simp [hrowi]
      · simp [hz]
    have hcnew : countInUse fpsp =
        countInUse (releaseSlotInfo fpsp i).2 + 1 := by
      unfold countInUse
      rw [hm, hflip]
    refine ⟨hwf2, ?_⟩
    rw [hcount, hinv, hcnew]
    have hcle : countInUse (releaseSlotInfo fpsp i).2 + 1 ≤ 5461 := by
      rw [← hcnew]
      exact le_trans hc hms
    omega
  | find m =>
    simp only [applyOp, findSlot]
    obtain ⟨hr, hm, hw, hwf2, _⟩ := findSlotAux_frame (m % 4294967296)
      (List.range fpsp.maxSlots) fpsp (-1)
      ((fpsp.maxAcceptableWaste + 1) % 4294967296) 0 hwf
      (fun i hi => List.mem_range.mp hi)
    refine ⟨hwf2, ?_⟩
    rw [freeSlotCount_congr hr, countInUse_congr hr hm]
    exact hinv
  | firstFree =>
    simp only [applyOp, firstFreeSlotInfo]
    obtain ⟨hr, hm, hw, hwf2⟩ := firstFreeSlotInfoAux_frame
      (List.range fpsp.maxSlots) fpsp hwf (fun i hi => List.mem_range.mp hi)
    refine ⟨hwf2, ?_⟩
    rw [freeSlotCount_congr hr, countInUse_congr hr hm]
    exact hinv
  | readSize i =>
    simp only [applyOp]
    simp only [preOp, decide_eq_true_eq] at hpre
    obtain ⟨hr, hm, hw, hwf2, _, _, _⟩ := freeSlotSize_frame fpsp i hwf hpre
    refine ⟨hwf2, ?_⟩
    rw [freeSlotCount_congr hr, countInUse_congr hr hm]
    exact hinv

/-- Claim C8: the 16-bit header row count always equals the number of rows
whose size field is non-zero; this invariant is preserved by every operation
sequence in which `AllocateSlotInfo` is only called on rows whose size is 0 and
`ReleaseSlotInfo` only on rows whose size is non-zero, and only the claim and
release operations mutate the count. -/
theorem claim_C8_count_invariant (ops : List PageOp) :
    ∀ fpsp : FreePhysicalSlotPage, pageWellFormed fpsp →
    legalOps fpsp ops = true →
    freeSlotCount fpsp = countInUse fpsp →
    freeSlotCount (applyOps fpsp ops) = countInUse (applyOps fpsp ops) := by
  induction ops with
  | nil =>
    intro fpsp _ _ hinv
    exact hinv
  | cons op rest ih =>
    intro fpsp hwf hlegal hinv
    simp only [legalOps, Bool.and_eq_true] at hlegal
    obtain ⟨hpre, hrest⟩ := hlegal
    obtain ⟨hwf2, hinv2⟩ := applyOp_preserves fpsp op hwf hpre hinv
    exact ih (applyOp fpsp op) hwf2 hrest hinv2

def witRecordC8 : Record := ⟨[25, 147, 0, 0] ++ List.replicate 12 0⟩

def witPageC8 : FreePhysicalSlotPage :=
  { record := witRecordC8, maxSlots := 1, maxAcceptableWaste := 4,
    sizeCache := [0] }

/-- Witness for claim C8: a fresh one-row page, claim row 0 then release it;
the header count matches the number of in-use rows throughout. -/
theorem claim_C8_count_invariant_witness :
    pageWellFormed witPageC8 ∧
    legalOps witPageC8 [.alloc 0, .release 0] = true ∧
    freeSlotCount (applyOps witPageC8 [.alloc 0, .release 0]) =
      countInUse (applyOps witPageC8 [.alloc 0, .release 0]) :=
  ⟨by decide, by decide,
    claim_C8_count_invariant [.alloc 0, .release 0] witPageC8
      (by decide) (by decide) (by decide)⟩

/-- Claim C9: on a page whose header count `FreeSlotCount()` is 0, calling
`ReleaseSlotInfo` on any in-range row sets the count to 65535 — the 16-bit
decrement wraps modulo `2^16` rather than failing or saturating. -/
theorem claim_C9_release_underflow_wraps (fpsp : FreePhysicalSlotPage)
    (i : Nat) (hwf : pageWellFormed fpsp) (hi : i < fpsp.maxSlots)
    (hcount : freeSlotCount fpsp = 0) :
    freeSlotCount (releaseSlotInfo fpsp i).2 = 65535 := by
  obtain ⟨hc, _, _, _, _, _, _, _⟩ := releaseSlotInfo_effects fpsp i hwf hi
  rw [hc, hcount]

def witRecordC9 : Record := ⟨[25, 147, 0, 0] ++ List.replicate 12 0⟩

def witPageC9 : FreePhysicalSlotPage :=
  { record := witRecordC9, maxSlots := 1, maxAcceptableWaste := 4,
    sizeCache := [0] }

/-- Witness for claim C9: releasing row 0 of a fresh page with count 0 leaves
the header count at 65535. -/
theorem claim_C9_release_underflow_wraps_witness :
    pageWellFormed witPageC9 ∧
    freeSlotCount (releaseSlotInfo witPageC9 0).2 = 65535 :=
  ⟨by decide,
    claim_C9_release_underflow_wraps witPageC9 0 (by decide) (by decide)
      (by decide)⟩

def cexRecordC1 : Record :=
  ⟨[25, 147, 0, 1] ++ List.replicate 8 0 ++ [0, 0, 0, 7]⟩

def cexPageC1 : FreePhysicalSlotPage :=
  { record := cexRecordC1, maxSlots := 1, maxAcceptableWaste := 4,
    sizeCache := [0] }

/-- Claim C1 (failing-input evaluation): on the constructor-built page whose
single row has on-disk size 7, `FindSlot(4294967295)` returns row index 0 even
though the row's size 7 is smaller than the request — the unsigned `uint32`
waste `7 - 4294967295` wraps to 8, which passes the `waste < 128` test.  The
return value 0 is an actual row index here, not the `-maxSize` sentinel, since
the maximum row size present is 7. -/
theorem claim_C1_findSlot_returns_undersized_row :
    newFreePhysicalSlotPage cexRecordC1 = some cexPageC1 ∧
    (findSlot cexPageC1 4294967295).1 = 0 ∧
    onDiskSize cexPageC1 0 = 7 ∧
    pageMaxSize cexPageC1 = 7 ∧
    7 < 4294967295 := by decide

def cexRecordC2 : Record :=
  ⟨[25, 147, 0, 2] ++ List.replicate 8 0 ++ [0, 0, 0, 7] ++
    List.replicate 8 0 ++ [255, 255, 255, 255]⟩

def cexPageC2 : FreePhysicalSlotPage :=
  { record := cexRecordC2, maxSlots := 2, maxAcceptableWaste := 7,
    sizeCache := [0, 0] }

/-- Claim C2 (failing-input evaluation): row 1 has size 4294967295, satisfies
`size ≥ min_size` and `size - min_size = 0 < 128`, yet `FindSlot(4294967295)`
returns row 0, whose size 7 is below the request: the wrapped `uint32` waste of
the undersized row 0 is 8 < 128, so the scan stops there first. -/
theorem claim_C2_findSlot_misses_qualifying_row :
    newFreePhysicalSlotPage cexRecordC2 = some cexPageC2 ∧
    onDiskSize cexPageC2 1 = 4294967295 ∧
    4294967295 ≤ onDiskSize cexPageC2 1 ∧
    onDiskSize cexPageC2 1 - 4294967295 < 128 ∧
    (findSlot cexPageC2 4294967295).1 = 0 ∧
    onDiskSize cexPageC2 0 = 7 ∧
    ¬ 4294967295 ≤ onDiskSize cexPageC2 0 := by decide

def cexRecordC3 : Record :=
  ⟨[25, 147, 0, 1] ++ List.replicate 8 0 ++ [0, 0, 0, 100] ++
    List.replicate 36 0⟩

def cexPageC3 : FreePhysicalSlotPage :=
  { record := cexRecordC3, maxSlots := 4, maxAcceptableWaste := 13,
    sizeCache := [0, 0, 0, 0] }

/-- Claim C3 (counterexample): on a 52-byte page (`maxAcceptableWaste = 13`)
whose only sized row has size 100, no row has waste strictly below both
`maxAcceptableWaste` and `MAX_AVAILABLE_SIZE_DIFFERENCE` for `min_size = 40`,
yet `FindSlot(40)` returns the non-negative row index 0 (waste 60 < 128 trips
the optimal-margin early return) instead of the claimed negative sentinel
`-100`. -/
theorem claim_C3_counterexample :
    newFreePhysicalSlotPage cexRecordC3 = some cexPageC3 ∧
    (∀ i < cexPageC3.maxSlots,
      ¬(40 ≤ onDiskSize cexPageC3 i ∧
        onDiskSize cexPageC3 i - 40 < cexPageC3.maxAcceptableWaste ∧
        onDiskSize cexPageC3 i - 40 < MAX_AVAILABLE_SIZE_DIFFERENCE)) ∧
    (findSlot cexPageC3 40).1 = 0 ∧
    pageMaxSize cexPageC3 = 100 ∧
    (findSlot cexPageC3 40).1 ≠ -(Int.ofNat (pageMaxSize cexPageC3)) ∧
    ¬ (findSlot cexPageC3 40).1 < 0 := by decide

/-! Effects of `SetFreeSlotSize` and frame lemma for sequences of reads. -/

theorem setFreeSlotSize_effects (fpsp : FreePhysicalSlotPage) (i s : Nat)
    (hwf : pageWellFormed fpsp) (hi : i < fpsp.maxSlots)
    (hs : s < 4294967296) :
    onDiskSize (setFreeSlotSize fpsp (slotinfoToOffset i) s) i = s ∧
    (∀ j, j ≠ i → j < fpsp.maxSlots →
      onDiskSize (setFreeSlotSize fpsp (slotinfoToOffset i) s) j =
        onDiskSize fpsp j) ∧
    (setFreeSlotSize fpsp (slotinfoToOffset i) s).maxSlots = fpsp.maxSlots ∧
    (setFreeSlotSize fpsp (slotinfoToOffset i) s).maxAcceptableWaste =
      fpsp.maxAcceptableWaste ∧
    pageWellFormed (setFreeSlotSize fpsp (slotinfoToOffset i) s) ∧
    (setFreeSlotSize fpsp (slotinfoToOffset i) s).sizeCache.getD i 0 = s ∧
    freeSlotCount (setFreeSlotSize fpsp (slotinfoToOffset i) s) =
      freeSlotCount fpsp := by
  obtain ⟨hlen, hrec, hb16, hmaw, hbytes⟩ := hwf
  have hrec' : 4 + fpsp.maxSlots * 12 ≤ fpsp.record.data.length := by
    simpa [OFFSET_DATA, OFFSET_COUNT, viewOFFSET_DATA, SIZE_SHORT,
      SLOT_INFO_SIZE, LOCATION_SIZE, SIZE_INFO_SIZE] using hrec
  have hb16' : 4 + fpsp.maxSlots * 12 ≤ 65536 := by
    simpa [OFFSET_DATA, OFFSET_COUNT, viewOFFSET_DATA, SIZE_SHORT,
      SLOT_INFO_SIZE, LOCATION_SIZE, SIZE_INFO_SIZE] using hb16
  have hoff := slotinfoToOffset_eq hb16 hi
  have hmod : (4 + i * 12 + LOCATION_SIZE) % 65536 = 12 + i * 12 := by
    simp only [LOCATION_SIZE]
    omega
  have hback : offsetToSlotinfo (4 + i * 12) = i := by
    rw [← hoff]
    exact offsetToSlotinfo_slotinfoToOffset hb16 hi
  have h2 : setFreeSlotSize fpsp (slotinfoToOffset i) s =
      { fpsp with
        sizeCache := fpsp.sizeCache.set i (s % 4294967296)
        record := writeUInt32 fpsp.record (12 + i * 12) s } := by
    simp only [setFreeSlotSize, hoff, hmod, hback]
  refine ⟨?_, ?_, ?_, ?_, ?_, ?_, ?_⟩
  · rw [h2]
    show readUInt32 _ ((slotinfoToOffset i + LOCATION_SIZE) % 65536) = s
    rw [hoff, hmod, readUInt32_writeUInt32_self _ _ _ (by omega)]
    omega
  · intro j hji hj
    rw [h2]
    show readUInt32 _ ((slotinfoToOffset j + LOCATION_SIZE) % 65536) = _
    have hoffj := slotinfoToOffset_eq hb16 hj
    have hmodj : (4 + j * 12 + LOCATION_SIZE) % 65536 = 12 + j * 12 := by
      simp only [LOCATION_SIZE]
      omega
    rw [hoffj, hmodj, readUInt32_writeUInt32_out _ _ (by omega)]
    unfold onDiskSize
    rw [hoffj, hmodj]
  · rw [h2]
  · rw [h2]
  · rw [h2]
    refine ⟨?_, ?_, ?_, hmaw, ?_⟩
    · simpa using hlen
    · show OFFSET_DATA + fpsp.maxSlots * SLOT_INFO_SIZE ≤ _
      rw [writeUInt32_length]
      exact hrec
    · exact hb16
    · exact writeUInt32_bytes_lt _ _ _ hbytes
  · rw [h2]
    show (fpsp.sizeCache.set i (s % 4294967296)).getD i 0 = s
    rw [List.getD_eq_getElem?_getD, List.getElem?_set_self (by omega)]
    show s % 4294967296 = s
    omega
  · rw [h2]
    show readUInt16 _ OFFSET_COUNT = readUInt16 _ OFFSET_COUNT
    simp only [OFFSET_COUNT, viewOFFSET_DATA]
    rw [readUInt16_writeUInt32_out _ _ (by omega)]

theorem readRows_frame (js : List Nat) :
    ∀ fpsp : FreePhysicalSlotPage, pageWellFormed fpsp →
    (∀ j ∈ js, j < fpsp.maxSlots) →
    (readRows fpsp js).record = fpsp.record ∧
    (readRows fpsp js).maxSlots = fpsp.maxSlots ∧
    (readRows fpsp js).maxAcceptableWaste = fpsp.maxAcceptableWaste ∧
    pageWellFormed (readRows fpsp js) ∧
    ∀ k, (readRows fpsp js).sizeCache.getD k 0 = fpsp.sizeCache.getD k 0 ∨
      (readRows fpsp js).sizeCache.getD k 0 = onDiskSize fpsp k := by
  induction js with
  | nil =>
    intro fpsp hwf _
    exact ⟨rfl, rfl, rfl, hwf, fun k => Or.inl rfl⟩
  | cons a t ih =>
    intro fpsp hwf hjs
    have ha := hjs a (List.mem_cons_self a t)
    obtain ⟨hr, hm, hw, hwf2, hother, hself, hval⟩ :=
      freeSlotSize_frame fpsp a hwf ha
    have ht : ∀ j ∈ t, j < (freeSlotSize fpsp (slotinfoToOffset a)).2.maxSlots := by
      rw [hm]
      exact fun j hj => hjs j (List.mem_cons_of_mem _ hj)
    obtain ⟨hr2, hm2, hw2, hwf3, hc2⟩ := ih _ hwf2 ht
    refine ⟨hr2.trans hr, hm2.trans hm, hw2.trans hw, hwf3, ?_⟩
    intro k
    rcases hc2 k with h | h
    · by_cases hk : k = a
      · subst hk
        rcases hself with h3 | h3
        · exact Or.inl (h.trans h3)
        · exact Or.inr (h.trans h3)
      · exact Or.inl (h.trans (hother k hk))
    · rw [onDiskSize_congr hr] at h
      exact Or.inr h

/-- Claim C4: `SetFreeSlotSize(r, s)` followed by `FreeSlotSize(r)` on the same
page instance returns `s` for any `s` in `[0, 2^32-1]`, and every subsequent
`FreeSlotSize(r)` without an intervening `SetFreeSlotSize` on that row
(arbitrary `FreeSlotSize` reads of other in-range rows in between) also
returns `s`. -/
theorem claim_C4_set_then_read_roundtrip (fpsp : FreePhysicalSlotPage)
    (i s : Nat) (js : List Nat) (hwf : pageWellFormed fpsp)
    (hi : i < fpsp.maxSlots) (hs : s < 4294967296)
    (hjs : ∀ j ∈ js, j < fpsp.maxSlots) :
    (freeSlotSize (setFreeSlotSize fpsp (slotinfoToOffset i) s)
      (slotinfoToOffset i)).1 = s ∧
    (freeSlotSize (readRows (setFreeSlotSize fpsp (slotinfoToOffset i) s) js)
      (slotinfoToOffset i)).1 = s := by
  obtain ⟨hdisk, hframe, hm1, hw1, hwf1, hcache1, hcount1⟩ :=
    setFreeSlotSize_effects fpsp i s hwf hi hs
  have hgen : ∀ ks : List Nat, (∀ j ∈ ks, j < fpsp.maxSlots) →
      (freeSlotSize (readRows (setFreeSlotSize fpsp (slotinfoToOffset i) s) ks)
        (slotinfoToOffset i)).1 = s := by
    intro ks hks
    obtain ⟨hr2, hm2, hw2, hwf2, hc2⟩ := readRows_frame ks _ hwf1
      (by rw [hm1]; exact hks)
    have hcache2 : (readRows (setFreeSlotSize fpsp (slotinfoToOffset i) s)
        ks).sizeCache.getD i 0 = s := by
      rcases hc2 i with h | h
      · rw [h, hcache1]
      · rw [h, hdisk]
    have hdisk2 : onDiskSize (readRows (setFreeSlotSize fpsp
        (slotinfoToOffset i) s) ks) i = s := by
      rw [onDiskSize_congr hr2, hdisk]
    obtain ⟨_, _, _, _, _, _, hval⟩ := freeSlotSize_frame _ i hwf2
      (by rw [hm2, hm1]; exact hi)
    rw [hval, hcache2, hdisk2]
    by_cases hz : s = 0
    · rw [if_pos hz]
    · rw [if_neg hz]
  refine ⟨?_, hgen js hjs⟩
  have h0 := hgen [] (by intro j hj; cases hj)
  exact h0

def witRecordC4 : Record := ⟨[25, 147, 0, 0] ++ List.replicate 12 0⟩

def witPageC4 : FreePhysicalSlotPage :=
  { record := witRecordC4, maxSlots := 1, maxAcceptableWaste := 4,
    sizeCache := [0] }

/-- Witness for claim C4: write size 12345 to row 0, read it back directly and
after an interleaved read. -/
theorem claim_C4_set_then_read_roundtrip_witness :
    pageWellFormed witPageC4 ∧
    (freeSlotSize (setFreeSlotSize witPageC4 (slotinfoToOffset 0) 12345)
      (slotinfoToOffset 0)).1 = 12345 ∧
    (freeSlotSize (readRows (setFreeSlotSize witPageC4 (slotinfoToOffset 0)
      12345) [0]) (slotinfoToOffset 0)).1 = 12345 :=
  ⟨by decide,
    (claim_C4_set_then_read_roundtrip witPageC4 0 12345 [0] (by decide)
      (by decide) (by decide) (by decide)).1,
    (claim_C4_set_then_read_roundtrip witPageC4 0 12345 [0] (by decide)
      (by decide) (by decide) (by decide)).2⟩

/-- Claim C5: for every vacant in-range row of a well-formed page satisfying
the documented count invariant, `AllocateSlotInfo(i)` leaves `FreeSlotCount()`
exactly one greater than before, sets the row's size field to 1 (as stored on
disk and as returned by `FreeSlotSize`), and sets the row's location field to
`PackLocation 1 1`, the minimal packed value with non-zero components. -/
theorem claim_C5_allocate_effects (fpsp : FreePhysicalSlotPage) (i : Nat)
    (hwf : pageWellFormed fpsp)
    (hinv : freeSlotCount fpsp = countInUse fpsp)
    (hi : i < fpsp.maxSlots) (hvac : onDiskSize fpsp i = 0) :
    freeSlotCount (allocateSlotInfo fpsp i).2 = freeSlotCount fpsp + 1 ∧
    onDiskSize (allocateSlotInfo fpsp i).2 i = 1 ∧
    (freeSlotSize (allocateSlotInfo fpsp i).2 (slotinfoToOffset i)).1 = 1 ∧
    slotInfoLocation (allocateSlotInfo fpsp i).2 i = packLocation 1 1 ∧
    (∀ r o, 1 ≤ r → 1 ≤ o → packLocation 1 1 ≤ packLocation r o) := by
  obtain ⟨hcount, hrowi, hframe, hm, hw, hwf2, hcache, hcacheo, hloc⟩ :=
    allocateSlotInfo_effects fpsp i hwf hi
  have hms := maxSlots_le fpsp hwf
  have hc : countInUse fpsp ≤ fpsp.maxSlots := countInUse_le fpsp
  refine ⟨?_, hrowi, ?_, hloc, ?_⟩
  · rw [hcount, hinv]
    omega
  · obtain ⟨_, _, _, _, _, _, hval⟩ := freeSlotSize_frame _ i hwf2
      (by rw [hm]; exact hi)
    rw [hval, hcache, hrowi]
    norm_num
  · intro r o hr ho
    unfold packLocation
    have : 65536 ≤ r * 65536 := by
      calc 65536 = 1 * 65536 := by norm_num
        _ ≤ r * 65536 := Nat.mul_le_mul_right _ hr
    omega

def witRecordC5 : Record := ⟨[25, 147, 0, 0] ++ List.replicate 12 0⟩

def witPageC5 : FreePhysicalSlotPage :=
  { record := witRecordC5, maxSlots := 1, maxAcceptableWaste := 4,
    sizeCache := [0] }

/-- Witness for claim C5: claiming row 0 of a fresh one-row page. -/
theorem claim_C5_allocate_effects_witness :
    pageWellFormed witPageC5 ∧
    freeSlotCount (allocateSlotInfo witPageC5 0).2 =
      freeSlotCount witPageC5 + 1 ∧
    onDiskSize (allocateSlotInfo witPageC5 0).2 0 = 1 ∧
    slotInfoLocation (allocateSlotInfo witPageC5 0).2 0 = packLocation 1 1 :=
  ⟨by decide,
    (claim_C5_allocate_effects witPageC5 0 (by decide) (by decide) (by decide)
      (by decide)).1,
    (claim_C5_allocate_effects witPageC5 0 (by decide) (by decide) (by decide)
      (by decide)).2.1,
    (claim_C5_allocate_effects witPageC5 0 (by decide) (by decide) (by decide)
      (by decide)).2.2.2.1⟩

/-- Claim C6: on a well-formed page, `AllocateSlotInfo(i)` on a vacant in-range
row followed by `ReleaseSlotInfo(i)` on the same row restores `FreeSlotCount()`
to its value before the pair of calls and leaves the row's size field 0
(vacant), both on disk and as returned by `FreeSlotSize`. -/
theorem claim_C6_allocate_release_roundtrip (fpsp : FreePhysicalSlotPage)
    (i : Nat) (hwf : pageWellFormed fpsp) (hi : i < fpsp.maxSlots)
    (hvac : onDiskSize fpsp i = 0) :
    freeSlotCount (releaseSlotInfo (allocateSlotInfo fpsp i).2 i).2 =
      freeSlotCount fpsp ∧
    onDiskSize (releaseSlotInfo (allocateSlotInfo fpsp i).2 i).2 i = 0 ∧
    (freeSlotSize (releaseSlotInfo (allocateSlotInfo fpsp i).2 i).2
      (slotinfoToOffset i)).1 = 0 := by
  obtain ⟨hcount1, hrowi1, hframe1, hm1, hw1, hwf1, hcache1, hcacheo1, hloc1⟩ :=
    allocateSlotInfo_effects fpsp i hwf hi
  have hi1 : i < (allocateSlotInfo fpsp i).2.maxSlots := by
    rw [hm1]
    exact hi
  obtain ⟨hcount2, hrowi2, hframe2, hm2, hw2, hwf2, hcache2, hcacheo2⟩ :=
    releaseSlotInfo_effects (allocateSlotInfo fpsp i).2 i hwf1 hi1
  have hlt := freeSlotCount_lt fpsp hwf
  refine ⟨?_, hrowi2, ?_⟩
  · rw [hcount2, hcount1]
    omega
  · obtain ⟨_, _, _, _, _, _, hval⟩ := freeSlotSize_frame _ i hwf2
      (by rw [hm2, hm1]; exact hi)
    rw [hval, hcache2, hrowi2]
    norm_num

def witRecordC6 : Record := ⟨[25, 147, 0, 0] ++ List.replicate 12 0⟩

def witPageC6 : FreePhysicalSlotPage :=
  { record := witRecordC6, maxSlots := 1, maxAcceptableWaste := 4,
    sizeCache := [0] }

/-- Witness for claim C6: claim and release row 0 of a fresh one-row page. -/
theorem claim_C6_allocate_release_roundtrip_witness :
    pageWellFormed witPageC6 ∧
    freeSlotCount (releaseSlotInfo (allocateSlotInfo witPageC6 0).2 0).2 =
      freeSlotCount witPageC6 ∧
    onDiskSize (releaseSlotInfo (allocateSlotInfo witPageC6 0).2 0).2 0 = 0 :=
  ⟨by decide,
    (claim_C6_allocate_release_roundtrip witPageC6 0 (by decide) (by decide)
      (by decide)).1,
    (claim_C6_allocate_release_roundtrip witPageC6 0 (by decide) (by decide)
      (by decide)).2.1⟩

/-! `FirstFreeSlotInfo` refinement lemmas. -/

theorem firstVacantFrom_congr {fpsp fpsp2 : FreePhysicalSlotPage}
    (hr : fpsp2.record = fpsp.record) :
    ∀ idxs : List Nat, firstVacantFrom fpsp2 idxs = firstVacantFrom fpsp idxs := by
  intro idxs
  induction idxs with
  | nil => rfl
  | cons a t ih =>
    simp only [firstVacantFrom, onDiskSize_congr hr, ih]

theorem firstFreeSlotInfoAux_spec (idxs : List Nat) :
    ∀ fpsp : FreePhysicalSlotPage, pageWellFormed fpsp →
    cacheConsistent fpsp → (∀ i ∈ idxs, i < fpsp.maxSlots) →
    (firstFreeSlotInfoAux fpsp idxs).1 = firstVacantFrom fpsp idxs := by
  induction idxs with
  | nil =>
    intro fpsp _ _ _
    rfl
  | cons a t ih =>
    intro fpsp hwf hcc hidxs
    have ha := hidxs a (List.mem_cons_self a t)
    obtain ⟨hres, hr, hm, hw, hwf2, hcc2⟩ := freeSlotSize_step fpsp a hwf hcc ha
    have ht : ∀ i ∈ t, i < (freeSlotSize fpsp (slotinfoToOffset a)).2.maxSlots := by
      rw [hm]
      exact fun i hi => hidxs i (List.mem_cons_of_mem _ hi)
    simp only [firstFreeSlotInfoAux, isAllocatedSlot, firstVacantFrom]
    by_cases hz : onDiskSize fpsp a = 0
    · rw [if_neg (by rw [hres, hz]; simp), if_pos hz]
    · rw [if_pos (by rw [hres]; simpa using hz), if_neg hz]
      rw [ih _ hwf2 hcc2 ht]
      exact firstVacantFrom_congr hr t

theorem firstVacantFrom_range_spec (fpsp : FreePhysicalSlotPage) :
    ∀ (n s : Nat),
    (firstVacantFrom fpsp (List.range' s n) = -1 ↔
      ∀ i, s ≤ i → i < s + n → onDiskSize fpsp i ≠ 0) ∧
    (∀ i : Nat, firstVacantFrom fpsp (List.range' s n) = Int.ofNat i →
      s ≤ i ∧ i < s + n ∧ onDiskSize fpsp i = 0 ∧
        ∀ j, s ≤ j → j < i → onDiskSize fpsp j ≠ 0) := by
  intro n
  induction n with
  | zero =>
    intro s
    constructor
    · simp only [List.range'_zero, firstVacantFrom]
      constructor
      · intro _ i hsi hin
        omega
      · intro _
        trivial
    · intro i hi
      simp only [List.range'_zero, firstVacantFrom] at hi
      exact absurd hi (by simp only [Int.ofNat_eq_natCast]; omega)
  | succ n ihn =>
    intro s
    rw [List.range'_succ s n 1]
    constructor
    · simp only [firstVacantFrom]
      by_cases hz : onDiskSize fpsp s = 0
      · rw [if_pos hz]
        constructor
        · intro h
          exact absurd h (by simp only [Int.ofNat_eq_natCast]; omega)
        · intro hall
          exact absurd hz (hall s le_rfl (by omega))
      · rw [if_neg hz]
        obtain ⟨ih1, _⟩ := ihn (s + 1)
        rw [ih1]
        constructor
        · intro h i hsi hin
          by_cases his : i = s
          · subst his
            exact hz
          · exact h i (by omega) (by omega)
        · intro h i hsi hin
          exact h i (by omega) (by omega)
    · intro i hi
      simp only [firstVacantFrom] at hi
      by_cases hz : onDiskSize fpsp s = 0
      · rw [if_pos hz] at hi
        have hsi : s = i := by
          simp only [Int.ofNat_eq_natCast] at hi
          omega
        subst hsi
        exact ⟨le_rfl, by omega, hz, fun j hj hji => by omega⟩
      · rw [if_neg hz] at hi
        obtain ⟨_, ih2⟩ := ihn (s + 1)
        obtain ⟨h1, h2, h3, h4⟩ := ih2 i hi
        refine ⟨by omega, by omega, h3, ?_⟩
        intro j hsj hji
        by_cases hjs : j = s
        · subst hjs
          exact hz
        · exact h4 j (by omega) hji

/-- Claim C7: `FirstFreeSlotInfo()` performs the linear scan described by the
spec (`firstVacantFrom` over row ids 0..maxSlots-1): it returns the smallest
row index whose size field is 0, or -1 when every row from 0 to maxSlots-1 is
in use. -/
theorem claim_C7_firstFreeSlotInfo (fpsp : FreePhysicalSlotPage)
    (hwf : pageWellFormed fpsp) (hcc : cacheConsistent fpsp) :
    (firstFreeSlotInfo fpsp).1 =
      firstVacantFrom fpsp (List.range fpsp.maxSlots) ∧
    ((firstFreeSlotInfo fpsp).1 = -1 ↔
      ∀ i < fpsp.maxSlots, onDiskSize fpsp i ≠ 0) ∧
    (∀ i : Nat, (firstFreeSlotInfo fpsp).1 = Int.ofNat i →
      i < fpsp.maxSlots ∧ onDiskSize fpsp i = 0 ∧
        ∀ j < i, onDiskSize fpsp j ≠ 0) := by
  have hspec : (firstFreeSlotInfo fpsp).1 =
      firstVacantFrom fpsp (List.range fpsp.maxSlots) :=
    firstFreeSlotInfoAux_spec (List.range fpsp.maxSlots) fpsp hwf hcc
      (fun i hi => List.mem_range.mp hi)
  obtain ⟨hneg, hpos⟩ := firstVacantFrom_range_spec fpsp fpsp.maxSlots 0
  rw [List.range_eq_range'] at hspec
  refine ⟨by rw [hspec, List.range_eq_range'], ?_, ?_⟩
  · rw [hspec, hneg]
    constructor
    · intro h i hi
      exact h i (by omega) (by omega)
    · intro h i _ hi
      exact h i (by omega)
  · intro i hi
    rw [hspec] at hi
    obtain ⟨_, h2, h3, h4⟩ := hpos i hi
    exact ⟨by omega, h3, fun j hj => h4 j (by omega) hj⟩

def witRecordC7 : Record :=
  ⟨[25, 147, 0, 1] ++ List.replicate 8 0 ++ [0, 0, 0, 7] ++
    List.replicate 12 0⟩

def witPageC7 : FreePhysicalSlotPage :=
  { record := witRecordC7, maxSlots := 2, maxAcceptableWaste := 7,
    sizeCache := [0, 0] }

/-- Witness for claim C7: on a page whose row 0 is in use (size 7) and row 1 is
vacant, the scan result equals the spec-level first vacant row. -/
theorem claim_C7_firstFreeSlotInfo_witness :
    pageWellFormed witPageC7 ∧ cacheConsistent witPageC7 ∧
    (firstFreeSlotInfo witPageC7).1 =
      firstVacantFrom witPageC7 (List.range witPageC7.maxSlots) ∧
    (firstFreeSlotInfo witPageC7).1 = 1 :=
  ⟨by decide, by decide,
    (claim_C7_firstFreeSlotInfo witPageC7 (by decide) (by decide)).1,
    by decide⟩

/-- Claim C10: `FindSlot` leaves the backing record's bytes entirely unchanged
— `FreeSlotCount()` and every row's on-disk size and location fields are the
same after the call as before; the only state it may change is the in-memory
size cache, each entry being either untouched or populated with the row's
unchanged on-disk size. -/
theorem claim_C10_findSlot_frame (fpsp : FreePhysicalSlotPage) (m : Nat)
    (hwf : pageWellFormed fpsp) :
    (findSlot fpsp m).2.record = fpsp.record ∧
    freeSlotCount (findSlot fpsp m).2 = freeSlotCount fpsp ∧
    (∀ i, onDiskSize (findSlot fpsp m).2 i = onDiskSize fpsp i) ∧
    (∀ i, slotInfoLocation (findSlot fpsp m).2 i = slotInfoLocation fpsp i) ∧
    (∀ j, (findSlot fpsp m).2.sizeCache.getD j 0 = fpsp.sizeCache.getD j 0 ∨
      (findSlot fpsp m).2.sizeCache.getD j 0 = onDiskSize fpsp j) := by
  simp only [findSlot]
  obtain ⟨hr, hmx, hw, hwf2, hc⟩ := findSlotAux_frame (m % 4294967296)
    (List.range fpsp.maxSlots) fpsp (-1)
    ((fpsp.maxAcceptableWaste + 1) % 4294967296) 0 hwf
    (fun i hi => List.mem_range.mp hi)
  refine ⟨hr, freeSlotCount_congr hr, fun i => onDiskSize_congr hr i, ?_, hc⟩
  intro i
  unfold slotInfoLocation slotInfoRecord slotInfoOffset
  rw [hr]

def witRecordC10 : Record :=
  ⟨[25, 147, 0, 1] ++ List.replicate 8 0 ++ [0, 0, 0, 7] ++
    List.replicate 12 0⟩

def witPageC10 : FreePhysicalSlotPage :=
  { record := witRecordC10, maxSlots := 2, maxAcceptableWaste := 7,
    sizeCache := [0, 0] }

/-- Witness for claim C10: a `FindSlot` call on a concrete two-row page leaves
the record and the header count unchanged. -/
theorem claim_C10_findSlot_frame_witness :
    pageWellFormed witPageC10 ∧
    (findSlot witPageC10 100).2.record = witPageC10.record ∧
    freeSlotCount (findSlot witPageC10 100).2 = freeSlotCount witPageC10 :=
  ⟨by decide,
    (claim_C10_findSlot_frame witPageC10 100 (by decide)).1,
    (claim_C10_findSlot_frame witPageC10 100 (by decide)).2.1⟩

/-! The exhausted-page path of `FindSlot` (amended claim C3). -/

theorem onDiskSize_lt (fpsp : FreePhysicalSlotPage)
    (hwf : pageWellFormed fpsp) (i : Nat) :
    onDiskSize fpsp i < 4294967296 :=
  readUInt32_lt _ hwf.2.2.2.2 _

theorem foldMax_congr {fpsp fpsp2 : FreePhysicalSlotPage}
    (hr : fpsp2.record = fpsp.record) :
    ∀ (t : List Nat) (ms : Nat),
    t.foldl (fun x i => max x (onDiskSize fpsp2 i)) ms =
      t.foldl (fun x i => max x (onDiskSize fpsp i)) ms := by
  intro t
  induction t with
  | nil =>
    intro ms
    rw [List.foldl_nil, List.foldl_nil]
  | cons a t ih =>
    intro ms
    rw [List.foldl_cons, List.foldl_cons]
    rw [onDiskSize_congr hr]
    exact ih _

theorem findSlotAux_exhausted (m : Nat) (hm : m < 4294967296)
    (idxs : List Nat) :
    ∀ (fpsp : FreePhysicalSlotPage) (bestSlot : Int) (bw ms : Nat),
    pageWellFormed fpsp → cacheConsistent fpsp →
    (∀ i ∈ idxs, i < fpsp.maxSlots) →
    m + OPTIMAL_WASTE_MARGIN ≤ 4294967296 →
    m + fpsp.maxAcceptableWaste ≤ 4294967296 →
    (∀ i ∈ idxs, m ≤ onDiskSize fpsp i →
      OPTIMAL_WASTE_MARGIN ≤ onDiskSize fpsp i - m) →
    (∀ i ∈ idxs, m ≤ onDiskSize fpsp i →
      ¬(onDiskSize fpsp i - m < fpsp.maxAcceptableWaste ∧
        onDiskSize fpsp i - m < MAX_AVAILABLE_SIZE_DIFFERENCE)) →
    (bestSlot = -1 ∨ ¬(bw < fpsp.maxAcceptableWaste ∧
      bw < MAX_AVAILABLE_SIZE_DIFFERENCE)) →
    (findSlotAux m fpsp idxs bestSlot bw ms).1 =
      -(Int.ofNat (idxs.foldl (fun x i => max x (onDiskSize fpsp i)) ms)) := by
  induction idxs with
  | nil =>
    intro fpsp bestSlot bw ms hwf hcc hidx h128 hmaw hnoopt hnobest hbest
    simp only [findSlotAux, List.foldl_nil]
    rcases hbest with hb | hb
    · rw [if_neg (by simp [hb])]
    · by_cases hbs : bestSlot ≠ -1
      · rw [if_pos hbs, if_neg hb]
      · rw [if_neg hbs]
  | cons a t ih =>
    intro fpsp bestSlot bw ms hwf hcc hidx h128 hmaw hnoopt hnobest hbest
    have ha := hidx a (List.mem_cons_self a t)
    obtain ⟨hres, hr, hmx, hw, hwf2, hcc2⟩ := freeSlotSize_step fpsp a hwf hcc ha
    have hsz := onDiskSize_lt fpsp hwf a
    have hszm : ¬ ((onDiskSize fpsp a + 4294967296 - m) % 4294967296 <
        OPTIMAL_WASTE_MARGIN) := by
      simp only [OPTIMAL_WASTE_MARGIN] at h128 ⊢
      by_cases hge : m ≤ onDiskSize fpsp a
      · have := hnoopt a (List.mem_cons_self a t) hge
        simp only [OPTIMAL_WASTE_MARGIN] at this
        omega
      · omega
    have hwaste_bad : ¬ ((onDiskSize fpsp a + 4294967296 - m) % 4294967296 <
        fpsp.maxAcceptableWaste ∧
        (onDiskSize fpsp a + 4294967296 - m) % 4294967296 <
        MAX_AVAILABLE_SIZE_DIFFERENCE) := by
      by_cases hge : m ≤ onDiskSize fpsp a
      · have hnb := hnobest a (List.mem_cons_self a t) hge
        have hmeq : (onDiskSize fpsp a + 4294967296 - m) % 4294967296 =
            onDiskSize fpsp a - m := by omega
        rw [hmeq]
        exact hnb
      · simp only [MAX_AVAILABLE_SIZE_DIFFERENCE]
        omega
    have hms2 : (if onDiskSize fpsp a > ms then onDiskSize fpsp a else ms) =
        max ms (onDiskSize fpsp a) := by
      rcases Nat.lt_or_ge ms (onDiskSize fpsp a) with h | h
      · rw [if_pos h, Nat.max_eq_right (le_of_lt h)]
      · rw [if_neg (by omega), Nat.max_eq_left h]
    simp only [findSlotAux]
    rw [hres]
    rw [if_pos (Nat.zero_le _), if_neg hszm]
    have hrec : ∀ (bs : Int) (bw2 : Nat),
        (bs = -1 ∨ ¬(bw2 < fpsp.maxAcceptableWaste ∧
          bw2 < MAX_AVAILABLE_SIZE_DIFFERENCE)) →
        (findSlotAux m (freeSlotSize fpsp (slotinfoToOffset a)).2 t bs bw2
          (if onDiskSize fpsp a > ms then onDiskSize fpsp a else ms)).1 =
        -(Int.ofNat ((a :: t).foldl
          (fun x i => max x (onDiskSize fpsp i)) ms)) := by
      intro bs bw2 hinv2
      have hmain := ih (freeSlotSize fpsp (slotinfoToOffset a)).2 bs bw2
        (if onDiskSize fpsp a > ms then onDiskSize fpsp a else ms)
        hwf2 hcc2
        (by rw [hmx]
            exact fun i hi => hidx i (List.mem_cons_of_mem _ hi))
        h128
        (by rw [hw]
            exact hmaw)
        (by intro i hi hge
            rw [onDiskSize_congr hr] at hge ⊢
            exact hnoopt i (List.mem_cons_of_mem _ hi) hge)
        (by intro i hi hge
            rw [onDiskSize_congr hr] at hge ⊢
            rw [hw]
            exact hnobest i (List.mem_cons_of_mem _ hi) hge)
        (by rw [hw]
            exact hinv2)
      rw [hmain, foldMax_congr hr, List.foldl_cons, hms2]
    by_cases hupd : bw > (onDiskSize fpsp a + 4294967296 - m) % 4294967296
    · rw [if_pos hupd]
      exact hrec _ _ (Or.inr hwaste_bad)
    · rw [if_neg hupd]
      exact hrec _ _ hbest

/-- Claim C3 (amended): if `min_size` is small enough that the `uint32` waste
subtraction cannot wrap below the acceptance thresholds
(`min_size + max(OPTIMAL_WASTE_MARGIN, maxAcceptableWaste) ≤ 2^32`), no row
has size ≥ `min_size` with waste below `OPTIMAL_WASTE_MARGIN`, and no row has
size ≥ `min_size` with waste strictly below both `maxAcceptableWaste` and
`MAX_AVAILABLE_SIZE_DIFFERENCE`, then `FindSlot` does not fail: it returns the
negated maximum row size `-maxSize` (non-positive, and 0 rather than negative
when every row's size is 0). -/
theorem claim_C3_amended_exhausted_sentinel (fpsp : FreePhysicalSlotPage)
    (m : Nat) (hwf : pageWellFormed fpsp) (hcc : cacheConsistent fpsp)
    (hm : m < 4294967296)
    (h128 : m + OPTIMAL_WASTE_MARGIN ≤ 4294967296)
    (hmaw : m + fpsp.maxAcceptableWaste ≤ 4294967296)
    (hnoopt : ∀ i < fpsp.maxSlots, m ≤ onDiskSize fpsp i →
      OPTIMAL_WASTE_MARGIN ≤ onDiskSize fpsp i - m)
    (hnobest : ∀ i < fpsp.maxSlots, m ≤ onDiskSize fpsp i →
      ¬(onDiskSize fpsp i - m < fpsp.maxAcceptableWaste ∧
        onDiskSize fpsp i - m < MAX_AVAILABLE_SIZE_DIFFERENCE)) :
    (findSlot fpsp m).1 = -(Int.ofNat (pageMaxSize fpsp)) := by
  simp only [findSlot, pageMaxSize]
  rw [Nat.mod_eq_of_lt hm]
  exact findSlotAux_exhausted m hm (List.range fpsp.maxSlots) fpsp (-1)
    ((fpsp.maxAcceptableWaste + 1) % 4294967296) 0 hwf hcc
    (fun i hi => List.mem_range.mp hi) h128 hmaw
    (fun i hi => hnoopt i (List.mem_range.mp hi))
    (fun i hi => hnobest i (List.mem_range.mp hi))
    (Or.inl rfl)

/-- Witness for the amended claim C3: on the 52-byte counterexample page with
one row of size 100, `FindSlot(500)` returns `-100`, the negated maximum row
size. -/
theorem claim_C3_amended_exhausted_sentinel_witness :
    pageWellFormed cexPageC3 ∧ cacheConsistent cexPageC3 ∧
    (findSlot cexPageC3 500).1 = -(Int.ofNat (pageMaxSize cexPageC3)) ∧
    pageMaxSize cexPageC3 = 100 :=
  ⟨by decide, by decide,
    claim_C3_amended_exhausted_sentinel cexPageC3 500 (by decide) (by decide)
      (by decide) (by decide) (by decide) (by decide) (by decide),
    by decide⟩
